import Mathlib

set_option maxHeartbeats 1000000

/-!
Verification of the tardis configuration reader

A shallow embedding of `tardis/io/configuration/config_reader.py`:
the `ConfigurationNameSpace` dict subclass (unit-coercing `__setitem__`,
dotted-path `get_config_item` / `set_config_item` with `itemN` list
indexing) and the `Configuration` validation pipeline
(`from_config_dict`, `validate_montecarlo_section`,
`validate_model_section`, `validate_spectrum_section`,
`parse_convergence_section`).

Python dictionaries are modelled as insertion-ordered association lists
with unique keys; mutation is explicit state passing.  Exceptions are
modelled with `Except`.  Astropy quantities are modelled as a rational
magnitude tagged with a unit, where a unit is a dimension tag plus a
rational scale; converting between units of the same dimension rescales
the magnitude, and identical units convert exactly.
-/

namespace Tardis

/-- A physical unit (abstracts an astropy unit): a dimension tag plus a
rational scale relative to the dimension's base unit.  Two units are
convertible exactly when their dimensions agree. -/
structure UnitT where
  dim : String
  scale : ℚ
deriving DecidableEq

/-- A Python value occurring in a configuration tree.  `dict` is a plain
Python `dict`; `node` is a `ConfigurationNameSpace` (the dict subclass).
`null` is Python `None`. -/
inductive Value where
  | null : Value
  | bool (b : Bool) : Value
  | num (m : ℚ) : Value
  | str (s : String) : Value
  | quantity (m : ℚ) (un : UnitT) : Value
  | list (xs : List Value) : Value
  | dict (es : List (String × Value)) : Value
  | node (es : List (String × Value)) : Value

/-- The ordered entries of a Python mapping. -/
abbrev Entries := List (String × Value)

/-- Python `d[k]` lookup on an ordered mapping (first matching key). -/
def lookupE : Entries → String → Option Value
  | [], _ => none
  | (k, v) :: rest, key => if k = key then some v else lookupE rest key

/-- Python `d[k] = v` on an ordered mapping: replaces the value in place
when the key is present, appends otherwise. -/
def insertE : Entries → String → Value → Entries
  | [], key, v => [(key, v)]
  | (k, w) :: rest, key, v =>
    if k = key then (k, v) :: rest else (k, w) :: insertE rest key v

/-- Python `k in d`. -/
def memE (es : Entries) (key : String) : Bool :=
  (lookupE es key).isSome

theorem lookupE_insertE_self (es : Entries) (k : String) (v : Value) :
    lookupE (insertE es k v) k = some v := by
  induction es with
  | nil => simp [insertE, lookupE]
  | cons hd tl ih =>
    obtain ⟨k', w⟩ := hd
    by_cases h : k' = k <;> simp [insertE, lookupE, h, ih]

theorem lookupE_insertE_ne (es : Entries) (k k' : String) (v : Value)
    (h : k ≠ k') : lookupE (insertE es k v) k' = lookupE es k' := by
  induction es with
  | nil => simp [insertE, lookupE, h]
  | cons hd tl ih =>
    obtain ⟨k0, w⟩ := hd
    by_cases h0 : k0 = k
    · subst h0; simp [insertE, lookupE, h]
    · simp [insertE, h0, lookupE]
      by_cases h1 : k0 = k' <;> simp [h1, ih]

theorem insertE_insertE (es : Entries) (k : String) (v w : Value) :
    insertE (insertE es k v) k w = insertE es k w := by
  induction es with
  | nil => simp [insertE]
  | cons hd tl ih =>
    obtain ⟨k0, u⟩ := hd
    by_cases h : k0 = k <;> simp [insertE, h, ih]

theorem insertE_self (es : Entries) (k : String) (v : Value)
    (h : lookupE es k = some v) : insertE es k v = es := by
  induction es with
  | nil => simp [lookupE] at h
  | cons hd tl ih =>
    obtain ⟨k0, u⟩ := hd
    by_cases h0 : k0 = k
    · subst h0
      simp [lookupE] at h
      simp [insertE, h]
    · simp [lookupE, h0] at h
      simp [insertE, h0, ih h]

theorem memE_insertE (es : Entries) (k k' : String) (v : Value) :
    memE (insertE es k v) k' = (k = k' || memE es k') := by
  by_cases h : k = k'
  · subst h; simp [memE, lookupE_insertE_self]
  · simp [memE, h, lookupE_insertE_ne es k k' v h]

/-- The errors raised by the configuration code.  Python exception
classes are mapped to constructors: `KeyError`, `IndexError`,
`AttributeError`, `TypeError`, `ValueError` (with a short tag naming
the offending check or field), `NotImplementedError`, and astropy's
`UnitConversionError` (the spec's UnitMismatch). -/
inductive ConfErr where
  | keyErr (k : String) : ConfErr
  | indexErr : ConfErr
  | attrErr (a : String) : ConfErr
  | typeErr : ConfErr
  | valueErr (tag : String) : ConfErr
  | notImplemented (tag : String) : ConfErr
  | unitMismatch : ConfErr
deriving DecidableEq

/-- Magnitude conversion between units.  Identical units convert
exactly (astropy converts a quantity to its own unit without numeric
change); otherwise the magnitudes rescale by the ratio of scales. -/
def convertMag (m : ℚ) (u1 u2 : UnitT) : ℚ :=
  if u1 = u2 then m else m * u1.scale / u2.scale

/-- Astropy `u.Quantity(v, un)`: a bare number acquires the unit, a quantity is
converted into the unit (failing with `UnitConversionError` when the
dimensions differ), a Python bool is its numeric value (bool is an int
subclass).  Other values (strings, lists, mappings, None) are modelled
conservatively as a `TypeError`; no reachable path in this development
applies the coercion to them. -/
def quantityCoerce (v : Value) (un : UnitT) : Except ConfErr Value :=
  match v with
  | .quantity m u1 =>
    if u1.dim = un.dim then .ok (.quantity (convertMag m u1 un) un)
    else .error .unitMismatch
  | .num m => .ok (.quantity m un)
  | .bool b => .ok (.quantity (if b then 1 else 0) un)
  | _ => .error .typeErr

/-- Python `hasattr(x, "unit")` as used by `__setitem__`: true for an
astropy quantity, and — through `ConfigurationNameSpace.__getattr__` —
for a namespace that has a key named "unit".  A plain dict has no
`unit` attribute regardless of its keys. -/
def hasUnitAttr : Value → Bool
  | .quantity _ _ => true
  | .node es => memE es "unit"
  | _ => false

/-- Astropy `u.Quantity(v, stored.unit)`: when the stored value is a quantity,
coerce into its unit.  When the stored value is a namespace whose
"unit" key made `hasattr` succeed, the attribute is an arbitrary
configuration value, not an astropy unit, and astropy rejects it
(unit strings are not modelled). -/
def coerceToUnitOf (v stored : Value) : Except ConfErr Value :=
  match stored with
  | .quantity _ un => quantityCoerce v un
  | _ => .error .typeErr

/-- The unit-coercion half of `ConfigurationNameSpace.__setitem__`
(line 107-108): if the key is already present and the stored value has
a `unit` attribute, the incoming value is reinterpreted in the stored
unit. -/
def coercePart (st : Entries) (k : String) (v : Value) :
    Except ConfErr Value :=
  match lookupE st k with
  | some old => if hasUnitAttr old then coerceToUnitOf v old else .ok v
  | none => .ok v

/-- The part of `__setitem__` for values that need no dict wrapping (the value is
not a plain dict): unit coercion followed by the dict store. -/
def setItemFlat (st : Entries) (k : String) (v : Value) :
    Except ConfErr Entries := do
  let w ← coercePart st k v
  pure (insertE st k w)

/-- Attribute access `self.k` through
`ConfigurationNameSpace.__getattr__`: a present key is returned,
otherwise the lookup falls through to `dict.__getattribute__`, which
raises `AttributeError` for the configuration attribute names used by
this module (none of them is a real `dict` attribute). -/
def getAttrE (st : Entries) (k : String) : Except ConfErr Value :=
  match lookupE st k with
  | some v => .ok v
  | none => .error (.attrErr k)

/-- A scalar value, as returned for the two boundary keys of a CSVY
auxiliary document. -/
inductive ScalarV where
  | num (m : ℚ) : ScalarV
  | str (s : String) : ScalarV
  | bool (b : Bool) : ScalarV
  | quantity (m : ℚ) (un : UnitT) : ScalarV

def ScalarV.toValue : ScalarV → Value
  | .num m => .num m
  | .str s => .str s
  | .bool b => .bool b
  | .quantity m un => .quantity m un

/-- Modelled from the spec: the external CSVY document loader
(`load_yaml_from_csvy`, not part of this module).  Given a path it
returns a flat mapping; per the spec only the two scalar boundary keys
`v_inner_boundary` / `v_outer_boundary` are consumed, so the model
restricts loader outputs to flat scalar mappings.  A loading failure is
an error. -/
def CsvyLoader : Type := String → Except ConfErr (List (String × ScalarV))

/-- Python `Path(dirname) / name`, used only to form the loader argument. -/
def pathJoin (d f : String) : String :=
  if d = "" then f else d ++ "/" ++ f

/-- Filter the two boundary keys out of a loaded CSVY document, in the
order the source checks them (`v_inner_boundary` then
`v_outer_boundary`). -/
def csvyBoundaryEntries (doc : List (String × ScalarV)) : Entries :=
  (match doc.lookup "v_inner_boundary" with
   | some sv => [("v_inner_boundary", sv.toValue)]
   | none => []) ++
  (match doc.lookup "v_outer_boundary" with
   | some sv => [("v_outer_boundary", sv.toValue)]
   | none => [])

/-- The re-assignment loop at the end of `__init__`
(`for key in self.model: self.model[key] = self.model[key]`), iterating
over the node's keys in order.  The values here are the scalar boundary
values, never plain dicts, so `__setitem__`'s dict-wrapping branch is a
no-op and `setItemFlat` is the exact semantics. -/
def reSetEntries (es : Entries) : Except ConfErr Entries :=
  (es.map Prod.fst).foldlM
    (fun acc k => do
      let v ← match lookupE acc k with
              | some v => Except.ok v
              | none => Except.error (.keyErr k)
      setItemFlat acc k v)
    es

/-- The checks `ConfigurationNameSpace.__init__` performs after having
inserted every key (lines 84-99): the model/csvy_model mutual-exclusion
error, and the synthesis of a `model` section from the CSVY document
when only `csvy_model` is present.  `hasattr` on this class is key
membership (see `getAttrE`).  The synthesized model dict holds at most
the two scalar boundary values, so wrapping it through `__setitem__`
reduces to inserting the corresponding namespace directly: its keys are
fresh and scalar-valued, and it contains no `csvy_model`/`model` key,
so the recursive `__init__` performs no coercion and raises nothing. -/
def cnsChecks (L : CsvyLoader) (st : Entries) : Except ConfErr Entries :=
  if memE st "csvy_model" && memE st "model" then
    .error (.valueErr "model_and_csvy_model")
  else if memE st "csvy_model" then do
    let dn ← getAttrE st "config_dirname"
    let dnS ← match dn with
              | .str s => Except.ok s
              | _ => Except.error .typeErr
    let cm ← getAttrE st "csvy_model"
    let cmS ← match cm with
              | .str s => Except.ok s
              | _ => Except.error .typeErr
    let doc ← L (pathJoin dnS cmS)
    let model0 := csvyBoundaryEntries doc
    let st2 ← setItemFlat st "model" (.node model0)
    let model1 ← reSetEntries model0
    setItemFlat st2 "model" (.node model1)
  else
    pure st

mutual

/-- The dict-wrapping half of `ConfigurationNameSpace.__setitem__`
(lines 102-105): a plain dict (and only a plain dict — not a list, not
an existing namespace) is wrapped via `ConfigurationNameSpace(value)`,
i.e. every key is re-inserted through `__setitem__` into a fresh
namespace and the `__init__` checks run on the result. -/
def wrapValue (L : CsvyLoader) : Value → Except ConfErr Value
  | .dict es => do
    let st ← initEntries L es []
    let st2 ← cnsChecks L st
    pure (.node st2)
  | v => pure v
termination_by structural v => v

/-- The insertion loop of `ConfigurationNameSpace.__init__`
(lines 78-80): every key of the argument dict is stored through
`__setitem__` — dict wrapping, unit coercion, store — in order, into
the (initially empty) namespace. -/
def initEntries (L : CsvyLoader) :
    List (String × Value) → Entries → Except ConfErr Entries
  | [], st => pure st
  | (k, v) :: rest, st => do
    let w ← wrapValue L v
    let st' ← setItemFlat st k w
    initEntries L rest st'
termination_by structural l _ => l

end

/-- Models `ConfigurationNameSpace.__setitem__` (lines 101-110): wrap plain
dicts, coerce into the unit of an existing unit-bearing value, store. -/
def cns_setitem (L : CsvyLoader) (st : Entries) (k : String) (v : Value) :
    Except ConfErr Entries := do
  let w ← wrapValue L v
  setItemFlat st k w

/-- Each step of the `__init__` loop is exactly a `__setitem__`. -/
theorem initEntries_cons (L : CsvyLoader) (k : String) (v : Value)
    (rest : List (String × Value)) (st : Entries) :
    initEntries L ((k, v) :: rest) st =
      (do
        let st' ← cns_setitem L st k v
        initEntries L rest st') := by
  simp only [initEntries, cns_setitem]
  cases wrapValue L v with
  | ok w => rfl
  | error e => rfl

/-- Models `ConfigurationNameSpace(value)` on a dict argument: insert every
entry through `__setitem__`, then run the post-insertion checks. -/
def cns_init (L : CsvyLoader) (es : List (String × Value)) :
    Except ConfErr Entries := do
  let st ← initEntries L es []
  cnsChecks L st

/-- Python subscript `v[k]` with a string key: mappings (plain dicts
and namespaces) look the key up, raising `KeyError` when absent; any
other value raises `TypeError`. -/
def subscriptV (v : Value) (k : String) : Except ConfErr Value :=
  match v with
  | .dict es => match lookupE es k with
                | some w => .ok w
                | none => .error (.keyErr k)
  | .node es => match lookupE es k with
                | some w => .ok w
                | none => .error (.keyErr k)
  | _ => .error .typeErr

/-- Python `k in v` for a string `k`: key membership for mappings,
substring test for strings, element equality for lists (a string equals
only an equal string), `TypeError` otherwise. -/
def pyContains (v : Value) (k : String) : Except ConfErr Bool :=
  match v with
  | .dict es => .ok (memE es k)
  | .node es => .ok (memE es k)
  | .str s => .ok (k.isEmpty || (s.splitOn k).length > 1)
  | .list xs => .ok (xs.any fun x => match x with
                                     | .str t => t = k
                                     | _ => false)
  | _ => .error .typeErr

/-- Python `v == s` against a string literal: true exactly for an equal
string, false (without error) for every other value. -/
def isStr (v : Value) (s : String) : Bool :=
  match v with
  | .str t => t = s
  | _ => false

/-- Python truthiness (`if x:`). -/
def pyTruthy : Value → Bool
  | .null => false
  | .bool b => b
  | .num m => decide (m ≠ 0)
  | .str s => !s.isEmpty
  | .quantity m _ => decide (m ≠ 0)
  | .list xs => !xs.isEmpty
  | .dict es => !es.isEmpty
  | .node es => !es.isEmpty

/-- The `.value` attribute read used by the validators on raw
(not yet wrapped) sections: an astropy quantity yields its magnitude;
a namespace yields its "value" entry through `__getattr__` when
present (a number compares like a float; any other value makes the
subsequent numeric comparison a `TypeError`); everything else has no
`value` attribute. -/
def valueAttr (v : Value) : Except ConfErr ℚ :=
  match v with
  | .quantity m _ => .ok m
  | .node es => match lookupE es "value" with
                | some (.num m) => .ok m
                | some (.bool b) => .ok (if b then 1 else 0)
                | some _ => .error .typeErr
                | none => .error (.attrErr "value")
  | _ => .error (.attrErr "value")

/-- A real Python assignment `v[k] = x`: plain-dict store for a dict,
`ConfigurationNameSpace.__setitem__` for a namespace, `TypeError`
otherwise. -/
def storeSubscript (L : CsvyLoader) (v : Value) (k : String) (x : Value) :
    Except ConfErr Value :=
  match v with
  | .dict es => .ok (.dict (insertE es k x))
  | .node es => do
    let es' ← cns_setitem L es k x
    pure (.node es')
  | _ => .error .typeErr

/-- Bookkeeping for in-place mutation: the object stored at key `k`
inside `v` was mutated (no assignment at the `v` level happened), so
the functional state replaces that entry directly. -/
def aliasUpdate (v : Value) (k : String) (x : Value) : Value :=
  match v with
  | .dict es => .dict (insertE es k x)
  | .node es => .node (insertE es k x)
  | w => w

/-- One parameter step of the inner loop of
`Configuration.parse_convergence_section` (lines 441-446): if the
variable's sub-section `.get(param, None)` is `None` (absent key or a
stored `None`) and the parent section has the parameter, copy the
parent's value into the sub-section.  The sub-section is read back from
the parent state because the source mutates it through the alias
`convergence_variable_section`. -/
def fillParamStep (L : CsvyLoader) (csv : Value) (var p : String) :
    Except ConfErr Value := do
  let sub ← subscriptV csv var
  let subEs ← match sub with
              | .dict es => Except.ok es
              | .node es => Except.ok es
              | _ => Except.error (.attrErr "get")
  match lookupE subEs p with
  | some .null =>
    (do
      let hasP ← pyContains csv p
      if hasP then do
        let pv ← subscriptV csv p
        let sub' ← storeSubscript L sub p pv
        pure (aliasUpdate csv var sub')
      else pure csv)
  | none =>
    (do
      let hasP ← pyContains csv p
      if hasP then do
        let pv ← subscriptV csv p
        let sub' ← storeSubscript L sub p pv
        pure (aliasUpdate csv var sub')
      else pure csv)
  | some _ => pure csv

/-- The `convergence_parameters` list of
`parse_convergence_section` (line 433). -/
def convParams : List String := ["damping_constant", "threshold", "type"]

/-- The convergence variables iterated by
`parse_convergence_section` (line 435). -/
def convVars : List String := ["t_inner", "t_rad", "w", "v_inner_boundary"]

/-- One variable step of `Configuration.parse_convergence_section`
(lines 435-446): ensure the sub-section key exists (inserting an empty
dict when absent), then run the parameter loop. -/
def fillVar (L : CsvyLoader) (csv : Value) (var : String) :
    Except ConfErr Value := do
  let hasVar ← pyContains csv var
  let csv ← if hasVar then pure csv
            else storeSubscript L csv var (.dict [])
  convParams.foldlM (fun c p => fillParamStep L c var p) csv

/-- Models `Configuration.parse_convergence_section` (lines 423-448). -/
def parse_convergence_section (L : CsvyLoader) (csv : Value) :
    Except ConfErr Value :=
  convVars.foldlM (fillVar L) csv

/-- Models `Configuration.validate_montecarlo_section` (lines 400-421):
dispatch on `convergence_strategy["type"]`; `"damped"` normalizes the
section in place (returned here as the updated montecarlo section),
`"custom"` raises `NotImplementedError`, anything else `ValueError`. -/
def validate_montecarlo_section (L : CsvyLoader) (mc : Value) :
    Except ConfErr Value := do
  let cs ← subscriptV mc "convergence_strategy"
  let t ← subscriptV cs "type"
  if isStr t "damped" then do
    let cs' ← parse_convergence_section L cs
    storeSubscript L mc "convergence_strategy" cs'
  else if isStr t "custom" then
    .error (.notImplemented "custom_convergence_strategy")
  else
    .error (.valueErr "convergence_strategy_not_damped_or_custom")

/-- The `structure.type` dispatch of
`Configuration.validate_model_section` (lines 348-365): the
`"specific"` and `"file"` branches check the velocity/boundary
ordering; any other type falls through silently. -/
def validateStructurePart (ms : Value) : Except ConfErr Unit := do
  let st ← subscriptV ms "structure"
  let ty ← subscriptV st "type"
  if isStr ty "specific" then do
    let startV ← subscriptV (← subscriptV st "velocity") "start"
    let stopV ← subscriptV (← subscriptV st "velocity") "stop"
    let sv ← valueAttr stopV
    let tv ← valueAttr startV
    if sv < tv then .error (.valueErr "stop_velocity_lt_start_velocity")
    else pure ()
  else if isStr ty "file" then do
    let vib ← subscriptV st "v_inner_boundary"
    let vob ← subscriptV st "v_outer_boundary"
    let ov ← valueAttr vob
    let iv ← valueAttr vib
    if ov < iv then .error (.valueErr "v_outer_lt_v_inner")
    else pure ()
  else pure ()

/-- The shared positivity checks of a density branch: `rho_0 > 0`,
`v_0 > 0`, and `time_0 > 0` when present (lines 368-388, identical
for the exponential and power_law branches). -/
def densityRhoV0Checks (dens : Value) : Except ConfErr Unit := do
  let rho0 ← subscriptV dens "rho_0"
  let v0 ← subscriptV dens "v_0"
  let rv ← valueAttr rho0
  if rv ≤ 0 then .error (.valueErr "density_rho_0") else
  let vv ← valueAttr v0
  if vv ≤ 0 then .error (.valueErr "density_v_0") else
  (do
    let hasT ← pyContains dens "time_0"
    if hasT then do
      let t0 ← subscriptV dens "time_0"
      let tv ← valueAttr t0
      if tv ≤ 0 then .error (.valueErr "density_time_0") else pure ()
    else pure ())

/-- The density dispatch of `Configuration.validate_model_section`
(lines 366-398): when `structure` has a `density` key, dispatch on its
`type`; `"exponential"`, `"power_law"` and `"uniform"` are checked and
any other type falls through silently. -/
def validateDensityPart (ms : Value) : Except ConfErr Unit := do
  let st ← subscriptV ms "structure"
  let hasDens ← pyContains st "density"
  if hasDens then do
    let dens ← subscriptV st "density"
    let ty ← subscriptV dens "type"
    if isStr ty "exponential" then densityRhoV0Checks dens
    else if isStr ty "power_law" then densityRhoV0Checks dens
    else if isStr ty "uniform" then do
      let dv ← subscriptV dens "value"
      let rv ← valueAttr dv
      if rv ≤ 0 then .error (.valueErr "density_value") else
      (do
        let hasT ← pyContains dens "time_0"
        if hasT then do
          let t0 ← subscriptV dens "time_0"
          let tv ← valueAttr t0
          if tv ≤ 0 then .error (.valueErr "density_time_0") else pure ()
        else pure ())
    else pure ()
  else pure ()

/-- Models `Configuration.validate_model_section` (lines 339-398): the
structure-type checks followed by the density checks. -/
def validate_model_section (ms : Value) : Except ConfErr Unit := do
  validateStructurePart ms
  validateDensityPart ms

/-- Models `Configuration.validate_spectrum_section` (lines 308-337): reject
`start.value > stop.value`, then reject the combination of the
`"integrated"` method with full relativity as unimplemented. -/
def validate_spectrum_section (sp : Value) (enableFullRelativity : Value) :
    Except ConfErr Unit := do
  let startV ← subscriptV sp "start"
  let stopV ← subscriptV sp "stop"
  let sv ← valueAttr startV
  let tv ← valueAttr stopV
  if tv < sv then .error (.valueErr "spectrum_start_gt_stop")
  else do
    let m ← subscriptV sp "method"
    let integrated := isStr m "integrated"
    if pyTruthy enableFullRelativity && integrated then
      .error (.notImplemented "integrated_full_relativity")
    else pure ()

/-- The supernova and plasma checks inlined in
`Configuration.from_config_dict` (lines 264-299). -/
def supernovaPlasmaChecks (vcd : Entries) : Except ConfErr Unit := do
  let sn ← match lookupE vcd "supernova" with
           | some v => Except.ok v
           | none => Except.error (.keyErr "supernova")
  let te ← subscriptV sn "time_explosion"
  let lws ← subscriptV sn "luminosity_wavelength_start"
  let lwe ← subscriptV sn "luminosity_wavelength_end"
  let tev ← valueAttr te
  if tev ≤ 0 then .error (.valueErr "time_explosion") else
  let lsv ← valueAttr lws
  let lev ← valueAttr lwe
  if lev < lsv then .error (.valueErr "luminosity_wavelength_limits") else
  let pl ← match lookupE vcd "plasma" with
           | some v => Except.ok v
           | none => Except.error (.keyErr "plasma")
  let iti ← subscriptV pl "initial_t_inner"
  let itr ← subscriptV pl "initial_t_rad"
  let itiv ← valueAttr iti
  if itiv < -1 then .error (.valueErr "initial_t_inner") else
  let itrv ← valueAttr itr
  if itrv < -1 then .error (.valueErr "initial_t_rad") else pure ()

/-- Models `Configuration.from_config_dict` (lines 232-306).  The external
schema validator `config_validator.validate_dict` is a collaborator and
is passed in as `V`; it is consulted only when `validate` is true.  The
montecarlo section is validated first (its normalization mutates the
shared dict, modelled by re-inserting the returned section), then the
model/supernova/plasma checks run unless a `csvy_model` key is present,
then the spectrum section is checked, and finally the validated dict is
wrapped through `ConfigurationNameSpace.__init__`. -/
def from_config_dict (L : CsvyLoader)
    (V : Entries → Except ConfErr Entries) (config : Entries)
    (validate : Bool) (configDirname : String) :
    Except ConfErr Entries := do
  let vcd ← if validate then V config else pure config
  let vcd := insertE vcd "config_dirname" (.str configDirname)
  let mc ← match lookupE vcd "montecarlo" with
           | some v => Except.ok v
           | none => Except.error (.keyErr "montecarlo")
  let mc' ← validate_montecarlo_section L mc
  let vcd := insertE vcd "montecarlo" mc'
  if memE vcd "csvy_model" then pure ()
  else if memE vcd "model" then do
    let ms ← match lookupE vcd "model" with
             | some v => Except.ok v
             | none => Except.error (.keyErr "model")
    validate_model_section ms
    supernovaPlasmaChecks vcd
  else pure ()
  let sp ← match lookupE vcd "spectrum" with
           | some v => Except.ok v
           | none => Except.error (.keyErr "spectrum")
  let efr ← subscriptV mc' "enable_full_relativity"
  validate_spectrum_section sp efr
  cns_init L vcd

/-- Python `s.startswith(p)` as a prefix test on the character lists. -/
def strStartsWith (s p : String) : Bool :=
  p.data.isPrefixOf s.data

/-- Python `s.replace("item", "")` on the character list: scan left to right,
removing each non-overlapping occurrence of `item` and continuing after
it, exactly as Python's `str.replace` does. -/
def stripItemChars : List Char → List Char
  | 'i' :: 't' :: 'e' :: 'm' :: rest => stripItemChars rest
  | c :: rest => c :: stripItemChars rest
  | [] => []

/-- Python `int(s)` on the string left after removing `"item"`:
optional surrounding whitespace, an optional sign, then at least one
digit (digit-group underscores are not modelled); anything else raises
`ValueError`. -/
def pyParseInt (cs : List Char) : Except ConfErr Int :=
  let t := ((cs.dropWhile Char.isWhitespace).reverse.dropWhile
    Char.isWhitespace).reverse
  let signDigits : Bool × List Char :=
    match t with
    | '-' :: ds => (true, ds)
    | '+' :: ds => (false, ds)
    | ds => (false, ds)
  match signDigits with
  | (neg, ds) =>
    if ds.isEmpty || !(ds.all Char.isDigit) then
      .error (.valueErr "int_parse")
    else
      let n : Nat := ds.foldl (fun acc c => acc * 10 + (c.toNat - 48)) 0
      .ok (if neg then -(n : Int) else (n : Int))

/-- The index taken from an `itemN` path segment:
`int(segment.replace("item", ""))`. -/
def itemIndex (seg : String) : Except ConfErr Int :=
  pyParseInt (stripItemChars seg.data)

/-- Python `s.split(".")` on the character list: fold from the right, starting
a new segment at every dot.  The empty string splits to `[""]`, exactly
as in Python. -/
def splitDotChars (l : List Char) : List (List Char) :=
  l.foldr
    (fun c acc =>
      if c = '.' then [] :: acc
      else match acc with
           | seg :: rest => (c :: seg) :: rest
           | [] => [[c]])
    [[]]

/-- The dot-split of a path string, `config_item_string.split(".")`. -/
def pySplitDot (s : String) : List String :=
  (splitDotChars s.data).map fun l => ⟨l⟩

/-- Python sequence index normalization: a negative index counts from
the end; out-of-range indices are rejected. -/
def pyNormIdx (len : Nat) (i : Int) : Option Nat :=
  if 0 ≤ i then (if i < (len : Int) then some i.toNat else none)
  else (let j := i + (len : Int)
        if 0 ≤ j then some j.toNat else none)

/-- Python `v[i]` with an integer index: sequences and strings index
(with negative wrap-around, `IndexError` out of range), mappings look
up an integer key — never present here, since configuration keys are
strings, hence `KeyError` — and other values raise `TypeError`. -/
def pyIndexInt (v : Value) (i : Int) : Except ConfErr Value :=
  match v with
  | .list xs =>
    match pyNormIdx xs.length i with
    | some n => match xs.get? n with
                | some x => .ok x
                | none => .error .indexErr
    | none => .error .indexErr
  | .str s =>
    match pyNormIdx s.length i with
    | some n => match s.toList.get? n with
                | some c => .ok (.str (String.singleton c))
                | none => .error .indexErr
    | none => .error .indexErr
  | .dict _ => .error (.keyErr (toString i))
  | .node _ => .error (.keyErr (toString i))
  | _ => .error .typeErr

/-- Python `xs[i] = x` on a list, with the same index normalization as
the read. -/
def pySetIdx (xs : List Value) (i : Int) (x : Value) :
    Except ConfErr (List Value) :=
  match pyNormIdx xs.length i with
  | some n => .ok (xs.set n x)
  | none => .error .indexErr

/-- Models `ConfigurationNameSpace.get_config_item` (lines 126-154) on the
dot-split path.  A single segment is a plain key lookup (the source's
`startswith("item")` test selects two identical branches there); a
two-segment path whose second segment starts with `"item"` indexes the
sequence stored at the first segment; otherwise the head key is looked
up and the tail is delegated to the resulting child, which must itself
be a namespace (everything else lacks `get_config_item`:
`AttributeError`).  The recursion is on the split path: the source
re-joins the tail with `"."` and re-splits it, which yields the same
tail since split segments contain no dot. -/
def getConfigItemPath (es : Entries) : List String → Except ConfErr Value
  | [] => .error (.keyErr "")
  | [p] =>
    (match lookupE es p with
     | some v => .ok v
     | none => .error (.keyErr p))
  | p :: q :: rest =>
    if rest.isEmpty && strStartsWith q "item" then do
      let container ← match lookupE es p with
                      | some v => Except.ok v
                      | none => Except.error (.keyErr p)
      let i ← itemIndex q
      pyIndexInt container i
    else
      match lookupE es p with
      | none => .error (.keyErr p)
      | some (.node child) => getConfigItemPath child (q :: rest)
      | some _ => .error (.attrErr "get_config_item")

/-- Models `get_config_item` on the dotted string. -/
def get_config_item (es : Entries) (path : String) : Except ConfErr Value :=
  getConfigItemPath es (pySplitDot path)

/-- Models `ConfigurationNameSpace.set_config_item` (lines 156-188) on the
dot-split path, mirroring `getConfigItemPath`.  A single segment goes
through `__setitem__`.  For a terminal `itemN` segment the current
element is read first; if it carries a unit the incoming value is
coerced into that unit (the coercion, being the assignment's
right-hand side, is evaluated before the element store), and the list
element is replaced without any dict wrapping.  Longer paths delegate
to the child at the head key, which must be a namespace. -/
def setConfigItemPath (L : CsvyLoader) (es : Entries) :
    List String → Value → Except ConfErr Entries
  | [], _ => .error (.keyErr "")
  | [p], v => cns_setitem L es p v
  | p :: q :: rest, v =>
    if rest.isEmpty && strStartsWith q "item" then do
      let container ← match lookupE es p with
                      | some w => Except.ok w
                      | none => Except.error (.keyErr p)
      let i ← itemIndex q
      let current ← pyIndexInt container i
      let newv ← if hasUnitAttr current then coerceToUnitOf v current
                 else pure v
      match container with
      | .list xs => do
        let xs' ← pySetIdx xs i newv
        pure (insertE es p (.list xs'))
      | _ => .error .typeErr
    else
      match lookupE es p with
      | none => .error (.keyErr p)
      | some (.node child) => do
        let child' ← setConfigItemPath L child (q :: rest) v
        pure (insertE es p (.node child'))
      | some _ => .error (.attrErr "set_config_item")

/-- Models `set_config_item` on the dotted string. -/
def set_config_item (L : CsvyLoader) (es : Entries) (path : String)
    (v : Value) : Except ConfErr Entries :=
  setConfigItemPath L es (pySplitDot path) v

/-- Reduction of `Except` bind on a success, for unfolding the do
blocks above. -/
@[simp] theorem bind_ok {α β : Type} (a : α) (f : α → Except ConfErr β) :
    (Except.ok a >>= f) = f a := rfl

/-- Reduction of `Except` bind on an error. -/
@[simp] theorem bind_error {α β : Type} (e : ConfErr)
    (f : α → Except ConfErr β) :
    ((Except.error e : Except ConfErr α) >>= f) = Except.error e := rfl

/-- Reduction of `pure` into `Except` to `ok`. -/
@[simp] theorem pure_eq_ok {α : Type} (a : α) :
    (pure a : Except ConfErr α) = Except.ok a := rfl

/-- Models `__setitem__` run with Python exception semantics made explicit:
the unit coercion is evaluated before `dict.__setitem__`, so a raised
exception leaves the mapping exactly as it was.  Returns the mapping
after the call together with the exception, if any. -/
def setItemTry (L : CsvyLoader) (st : Entries) (k : String) (v : Value) :
    Entries × Option ConfErr :=
  match cns_setitem L st k v with
  | .ok st' => (st', none)
  | .error e => (st, some e)

/-!
Pure description of the convergence normalization

`parse_convergence_section`, run on a plain-dict convergence section
whose variable sub-sections (when present) are plain dicts, computes
the following pure function of the entries.  The equivalence is proved
below and used to settle the claims about default inheritance.
-/

/-- Python `convergence_variable_section.get(param, None) is None`: the key is
absent or holds `None`. -/
def getParamIsNone (ves : Entries) (p : String) : Bool :=
  match lookupE ves p with
  | none => true
  | some .null => true
  | some _ => false

/-- One copy-down step: if the sub-section is missing the parameter and
the parent defines it, copy the parent's value down. -/
def copyDown (parent ves : Entries) (p : String) : Entries :=
  if getParamIsNone ves p then
    match lookupE parent p with
    | some pv => insertE ves p pv
    | none => ves
  else ves

/-- The parameter loop of `parse_convergence_section` on one variable's
sub-section, as a pure function. -/
def fillParamsPure (parent ves : Entries) (ps : List String) : Entries :=
  ps.foldl (copyDown parent) ves

/-- The entries of the variable's sub-section before normalization (the
empty dict when the variable is absent). -/
def varSubEntries (ces : Entries) (var : String) : Entries :=
  match lookupE ces var with
  | some (.dict ves) => ves
  | _ => []

/-- One variable's step of the pure normalization: store the filled
sub-section at the variable's key. -/
def normStep (c : Entries) (var : String) : Entries :=
  insertE c var (.dict (fillParamsPure c (varSubEntries c var) convParams))

/-- The whole normalization of `parse_convergence_section`, as a pure
function on the section's entries. -/
def normalizeConvPure (ces : Entries) : Entries :=
  convVars.foldl normStep ces

/-- Check that every convergence variable's sub-section, when present,
is a plain dict. -/
def subsAreDicts (ces : Entries) : Bool :=
  convVars.all fun var =>
    match lookupE ces var with
    | none => true
    | some (.dict _) => true
    | some _ => false

/-- Is the value a plain (raw) Python dict? -/
def isDictV : Value → Bool
  | .dict _ => true
  | _ => false

/-- No value stored at the top level of this mapping is a raw dict. -/
def entriesNoDict (st : Entries) : Prop :=
  ∀ k w, lookupE st k = some w → isDictV w = false

/-- A CSVY loader used for concrete runs that never touch a CSVY file:
loading is an error.  No configuration below contains a `csvy_model`
key, so the loader is never consulted. -/
def L0 : CsvyLoader := fun _ => .error (.valueErr "no_loader")

/-- A schema validator that rejects everything, used to demonstrate
call paths on which the validator is provably not consulted. -/
def V0 : Entries → Except ConfErr Entries :=
  fun _ => .error (.valueErr "schema_rejected")

/-- The identity schema validator: the document is used as given
(concrete runs below feed documents that are already well-formed). -/
def VId : Entries → Except ConfErr Entries := fun d => .ok d

/-- A wavelength unit for concrete configurations. -/
def angstrom : UnitT := ⟨"length", 1⟩

/-- A velocity unit for concrete configurations. -/
def kmPerS : UnitT := ⟨"speed", 1000⟩

/-- A second velocity unit of the same dimension. -/
def mPerS : UnitT := ⟨"speed", 1⟩

/-- A time unit, dimensionally incompatible with the velocity units. -/
def dayU : UnitT := ⟨"time", 86400⟩

/-!
Supporting lemmas
-/

/-- The store `setItemFlat` only errors in its coercion; on success the result is
the plain insert of the coerced value, so key membership grows by
exactly the stored key. -/
theorem setItemFlat_mem (st : Entries) (k : String) (v : Value)
    (r : Entries) (k' : String) (h : setItemFlat st k v = .ok r) :
    memE r k' = (decide (k = k') || memE st k') := by
  unfold setItemFlat at h
  cases hc : coercePart st k v with
  | error e => rw [hc] at h; simp at h
  | ok w =>
    rw [hc] at h
    simp only [bind_ok, pure_eq_ok, Except.ok.injEq] at h
    subst h
    simpa using memE_insertE st k k' w

/-- Keys of the argument dict (and keys already inserted) are keys of
the namespace `__init__` builds. -/
theorem initEntries_key_mem (L : CsvyLoader) :
    ∀ (l : List (String × Value)) (st0 st : Entries) (k : String),
      initEntries L l st0 = .ok st →
      memE st0 k = true ∨ memE l k = true → memE st k = true := by
  intro l
  induction l with
  | nil =>
    intro st0 st k h hmem
    simp only [initEntries, pure_eq_ok, Except.ok.injEq] at h
    subst h
    rcases hmem with h1 | h1
    · exact h1
    · simp [memE, lookupE] at h1
  | cons hd tl ih =>
    obtain ⟨k0, v⟩ := hd
    intro st0 st k h hmem
    rw [initEntries] at h
    cases hw : wrapValue L v with
    | error e => rw [hw] at h; simp at h
    | ok w =>
      rw [hw] at h
      simp only [bind_ok] at h
      cases hs : setItemFlat st0 k0 w with
      | error e => rw [hs] at h; simp at h
      | ok st1 =>
        rw [hs] at h
        simp only [bind_ok] at h
        apply ih st1 st k h
        by_cases hk : k0 = k
        · left
          rw [setItemFlat_mem st0 k0 w st1 k hs]
          simp [hk]
        · rcases hmem with h1 | h1
          · left
            rw [setItemFlat_mem st0 k0 w st1 k hs]
            simp [h1]
          · right
            simpa [memE, lookupE, hk] using h1

/-- A successful subscript on a value implies `in` answers true. -/
theorem subscriptV_contains (v : Value) (k : String) (w : Value)
    (h : subscriptV v k = .ok w) : pyContains v k = .ok true := by
  cases v with
  | dict es =>
    simp only [subscriptV] at h
    cases hl : lookupE es k with
    | none => rw [hl] at h; simp at h
    | some x => simp [pyContains, memE, hl]
  | node es =>
    simp only [subscriptV] at h
    cases hl : lookupE es k with
    | none => rw [hl] at h; simp at h
    | some x => simp [pyContains, memE, hl]
  | null => simp [subscriptV] at h
  | bool b => simp [subscriptV] at h
  | num m => simp [subscriptV] at h
  | str s => simp [subscriptV] at h
  | quantity m un => simp [subscriptV] at h
  | list xs => simp [subscriptV] at h

/-!
Claim C1 — `from_config_dict` with `validate=False`
-/

/-- A raw document whose montecarlo section fails its own validation
rule (`convergence_strategy.type` is neither damped nor custom). -/
def cfgC1 : Entries :=
  [("montecarlo", .dict [("convergence_strategy", .dict [("type", .str "foo")])])]

/-- C1, counterexample: with `validate` false the Validation Pipeline
is *not* skipped — a schema validator that rejects everything is never
consulted, yet the montecarlo rule still raises its `ValueError` on
this raw document, contradicting the claim that no montecarlo rule is
checked and no such error can be raised on that call path. -/
theorem C1_counterexample :
    from_config_dict L0 V0 cfgC1 false "" =
      .error (.valueErr "convergence_strategy_not_damped_or_custom") := rfl

/-- C1, amended: with `validate` false only the external schema
validation is skipped — the result does not depend on the schema
validator at all — while the section validators still run on the raw
document and their errors are raised (shown by the montecarlo rule
firing above on the same call path). -/
theorem C1_amended_skip_schema_only :
    (∀ (L : CsvyLoader) (V V' : Entries → Except ConfErr Entries)
        (cfg : Entries) (d : String),
        from_config_dict L V cfg false d = from_config_dict L V' cfg false d) ∧
      from_config_dict L0 V0 cfgC1 false "" =
        .error (.valueErr "convergence_strategy_not_damped_or_custom") :=
  ⟨fun _ _ _ _ _ => rfl, rfl⟩

/-!
Claim C5 — incompatible-dimension assignment
-/

/-- C5: assigning, at a key holding a unit-bearing quantity, a quantity
of a dimensionally incompatible unit raises the unit-mismatch error
(astropy's `UnitConversionError`), and the mapping after the failed
call still holds the old value unchanged: the coercion is evaluated
before `dict.__setitem__`, so the raise precedes any mutation. -/
theorem C5_unit_mismatch_atomic (L : CsvyLoader) (st : Entries)
    (k : String) (m0 m : ℚ) (u u1 : UnitT)
    (hstored : lookupE st k = some (.quantity m0 u))
    (hdim : u1.dim ≠ u.dim) :
    setItemTry L st k (.quantity m u1) = (st, some .unitMismatch) ∧
      lookupE (setItemTry L st k (.quantity m u1)).1 k =
        some (.quantity m0 u) := by
  have h : cns_setitem L st k (.quantity m u1) = .error .unitMismatch := by
    simp [cns_setitem, wrapValue, setItemFlat, coercePart, hstored,
      hasUnitAttr, coerceToUnitOf, quantityCoerce, hdim]
  refine ⟨?_, ?_⟩
  · simp [setItemTry, h]
  · simp [setItemTry, h, hstored]

/-- C5, witness: a concrete velocity-valued key rejects a time-valued
assignment and keeps its stored value. -/
theorem C5_witness :
    setItemTry L0 [("x", .quantity 5 kmPerS)] "x" (.quantity 3 dayU) =
        ([("x", .quantity 5 kmPerS)], some .unitMismatch) ∧
      lookupE (setItemTry L0 [("x", .quantity 5 kmPerS)] "x"
          (.quantity 3 dayU)).1 "x" = some (.quantity 5 kmPerS) :=
  C5_unit_mismatch_atomic L0 [("x", .quantity 5 kmPerS)] "x" 5 3 kmPerS
    dayU rfl (by decide)

/-!
Claim C6 — model and csvy_model mutual exclusion
-/

/-- C6, counterexample: the mutual-exclusion error is *not* raised
regardless of the entries' contents.  When the `model` entry's value is
itself a mapping containing a `csvy_model` key, wrapping that value
during the insertion loop enters the nested CSVY branch and raises
`AttributeError` for the missing `config_dirname` — before the
top-level mutual-exclusion check ever runs — so construction fails
with a different error than the claimed one. -/
theorem C6_counterexample :
    cns_init L0 [("model", .dict [("csvy_model", .str "y")]),
        ("csvy_model", .str "x")] =
        .error (.attrErr "config_dirname") ∧
      ConfErr.attrErr "config_dirname" ≠
        ConfErr.valueErr "model_and_csvy_model" :=
  ⟨rfl, by decide⟩

/-- C6, amended: whenever inserting the raw document's entries itself
succeeds (in particular for any entries whose values are scalars,
sequences, or mappings free of nested `csvy_model` handling), declaring
both `model` and `csvy_model` makes construction fail with the
mutual-exclusion `ValueError`, regardless of what the two entries
hold. -/
theorem C6_amended (L : CsvyLoader) (es : List (String × Value))
    (st : Entries) (hm : memE es "model" = true)
    (hc : memE es "csvy_model" = true)
    (hins : initEntries L es [] = .ok st) :
    cns_init L es = .error (.valueErr "model_and_csvy_model") := by
  have h1 : memE st "model" = true :=
    initEntries_key_mem L es [] st "model" hins (Or.inr hm)
  have h2 : memE st "csvy_model" = true :=
    initEntries_key_mem L es [] st "csvy_model" hins (Or.inr hc)
  simp [cns_init, hins, cnsChecks, h1, h2]

/-- C6, witness: both keys present with benign contents raise the
mutual-exclusion error. -/
theorem C6_amended_witness :
    cns_init L0 [("model", .dict []), ("csvy_model", .str "x")] =
      .error (.valueErr "model_and_csvy_model") :=
  C6_amended L0 [("model", .dict []), ("csvy_model", .str "x")]
    [("model", .node []), ("csvy_model", .str "x")] rfl rfl rfl

/-!
Claim C10 — unknown density types pass silently
-/

/-- C10: when `structure.density.type` is none of `"exponential"`,
`"power_law"`, `"uniform"`, the density block of
`validate_model_section` checks nothing and raises nothing: the density
part returns successfully and the whole validator behaves exactly as
the structure-type checks alone. -/
theorem C10_unknown_density_silent (ms stv densv tv : Value)
    (hst : subscriptV ms "structure" = .ok stv)
    (hdens : subscriptV stv "density" = .ok densv)
    (hty : subscriptV densv "type" = .ok tv)
    (h1 : isStr tv "exponential" = false)
    (h2 : isStr tv "power_law" = false)
    (h3 : isStr tv "uniform" = false) :
    validateDensityPart ms = .ok () ∧
      validate_model_section ms = validateStructurePart ms := by
  have hd : validateDensityPart ms = .ok () := by
    have hcont := subscriptV_contains stv "density" densv hdens
    simp [validateDensityPart, hst, hcont, hdens, hty, h1, h2, h3]
  refine ⟨hd, ?_⟩
  unfold validate_model_section
  cases hsp : validateStructurePart ms with
  | ok u => cases u; simp [hsp, hd]
  | error e => simp [hsp]

/-- C10, witness: a structure of unknown type with an unknown density
type validates without error, and the density block is inert. -/
theorem C10_witness :
    validateDensityPart (.dict [("structure", .dict
        [("type", .str "nebular"),
         ("density", .dict [("type", .str "weird")])])]) = .ok () ∧
      validate_model_section (.dict [("structure", .dict
          [("type", .str "nebular"),
           ("density", .dict [("type", .str "weird")])])]) =
        validateStructurePart (.dict [("structure", .dict
          [("type", .str "nebular"),
           ("density", .dict [("type", .str "weird")])])]) :=
  C10_unknown_density_silent
    (.dict [("structure", .dict
      [("type", .str "nebular"),
       ("density", .dict [("type", .str "weird")])])])
    (.dict [("type", .str "nebular"),
            ("density", .dict [("type", .str "weird")])])
    (.dict [("type", .str "weird")]) (.str "weird")
    rfl rfl rfl rfl rfl rfl

/-!
Claim C7 — path resolution in `get_config_item`
-/

/-- C7, counterexample: a sequence element that is a Namespace Node
does *not* support continuation of the path beyond the index segment.
The element at index 0 is a namespace (second conjunct), yet the
three-segment path fails: the recursion delegates the tail to the value
stored at the head key — the sequence itself — and sequences have no
`get_config_item`, so the call raises `AttributeError` instead of
returning the element's field. -/
theorem C7_counterexample :
    get_config_item [("a", .list [.node [("b", .num 1)]])] "a.item0.b" =
        .error (.attrErr "get_config_item") ∧
      get_config_item [("a", .list [.node [("b", .num 1)]])] "a.item0" =
        .ok (.node [("b", .num 1)]) :=
  ⟨rfl, rfl⟩

/-- C7, amended: `get_config_item` resolves the head segment at the
current level and delegates the remaining path to the child stored at
the head key, which must itself be a Namespace Node; an `itemN` segment
is honoured only as the second and final segment, where it indexes the
sequence at the first segment (in range: the element; past the end:
`IndexError`); an absent head key fails with `KeyError`; and
continuation beyond an index segment is not supported — on a path of
three or more segments whose head key holds a sequence, the call fails
with `AttributeError` no matter what the elements are. -/
theorem C7_amended :
    (∀ (es : Entries) (p : String) (tail : List String),
        lookupE es p = none →
        getConfigItemPath es (p :: tail) = .error (.keyErr p)) ∧
    (∀ (es : Entries) (p q : String) (xs : List Value) (n : Nat) (x : Value),
        lookupE es p = some (.list xs) → strStartsWith q "item" = true →
        itemIndex q = .ok (n : Int) → xs.get? n = some x →
        getConfigItemPath es [p, q] = .ok x) ∧
    (∀ (es : Entries) (p q : String) (xs : List Value) (n : Nat),
        lookupE es p = some (.list xs) → strStartsWith q "item" = true →
        itemIndex q = .ok (n : Int) → xs.length ≤ n →
        getConfigItemPath es [p, q] = .error .indexErr) ∧
    (∀ (es child : Entries) (p q : String) (rest : List String),
        ¬(rest = [] ∧ strStartsWith q "item" = true) →
        lookupE es p = some (.node child) →
        getConfigItemPath es (p :: q :: rest) =
          getConfigItemPath child (q :: rest)) ∧
    (∀ (es : Entries) (p q r0 : String) (rest : List String)
        (xs : List Value),
        lookupE es p = some (.list xs) →
        getConfigItemPath es (p :: q :: r0 :: rest) =
          .error (.attrErr "get_config_item")) := by
  refine ⟨?_, ?_, ?_, ?_, ?_⟩
  · intro es p tail h
    match tail with
    | [] => simp [getConfigItemPath, h]
    | q :: rest =>
      rw [getConfigItemPath]
      split
      · simp [h]
      · simp [h]
  · intro es p q xs n x hl hq hi hx
    have hn : n < xs.length := List.get?_eq_some.mp hx |>.1
    have hxg : xs[n] = x := by
      have hxe : xs[n]? = some x := by
        simpa [List.get?_eq_getElem?] using hx
      rw [List.getElem?_eq_getElem hn] at hxe
      exact Option.some.inj hxe
    rw [getConfigItemPath]
    simp only [List.isEmpty_nil, Bool.true_and, hq, if_pos]
    simp [hl, hi, pyIndexInt, pyNormIdx, hn, hxg]
  · intro es p q xs n hl hq hi hn
    rw [getConfigItemPath]
    simp only [List.isEmpty_nil, Bool.true_and, hq, if_pos]
    simp [hl, hi, pyIndexInt, pyNormIdx]
    rw [if_neg (by omega)]
  · intro es child p q rest hcond hl
    rw [getConfigItemPath]
    have hfalse : (rest.isEmpty && strStartsWith q "item") = false := by
      rcases Bool.eq_false_or_eq_true (strStartsWith q "item") with h | h
      · have hne : ¬ rest = [] := fun he => hcond ⟨he, h⟩
        simp [List.isEmpty_iff, hne]
      · simp [h]
    rw [if_neg (by simp [hfalse])]
    simp [hl]
  · intro es p q r0 rest xs hl
    rw [getConfigItemPath]
    simp [hl]

/-- C7, witness: concrete instances of each amended conjunct — missing
key, in-range index, out-of-range index, delegation to a child
namespace, and the failing continuation past an index segment. -/
theorem C7_amended_witness :
    getConfigItemPath [("a", .num 1)] ["zz"] = .error (.keyErr "zz") ∧
    getConfigItemPath [("a", .list [.num 5, .num 6, .num 7])]
        ["a", "item2"] = .ok (.num 7) ∧
    getConfigItemPath [("a", .list [.num 5, .num 6, .num 7])]
        ["a", "item3"] = .error .indexErr ∧
    getConfigItemPath [("a", .node [("b", .num 2)])] ["a", "b"] =
      getConfigItemPath [("b", .num 2)] ["b"] ∧
    getConfigItemPath [("a", .list [.node [("b", .num 1)]])]
        ["a", "item0", "b"] = .error (.attrErr "get_config_item") :=
  ⟨C7_amended.1 _ "zz" [] rfl,
   C7_amended.2.1 _ "a" "item2" _ 2 _ rfl rfl rfl rfl,
   C7_amended.2.2.1 _ "a" "item3" _ 3 rfl rfl rfl (by decide),
   C7_amended.2.2.2.1 _ _ "a" "b" [] (by decide) rfl,
   C7_amended.2.2.2.2 _ "a" "item0" "b" [] _ rfl⟩

/-!
Claim C8 — dict wrapping on storage
-/

/-- The wrapping step of `__setitem__` never lets a raw dict through: a
plain dict becomes a namespace and every other value is returned as
is. -/
theorem wrapValue_not_dict (L : CsvyLoader) (v w : Value)
    (h : wrapValue L v = .ok w) : isDictV w = false := by
  cases v with
  | dict es =>
    rw [wrapValue] at h
    cases h1 : initEntries L es [] with
    | error e => rw [h1] at h; simp at h
    | ok st =>
      rw [h1] at h
      simp only [bind_ok] at h
      cases h2 : cnsChecks L st with
      | error e => rw [h2] at h; simp at h
      | ok st2 =>
        rw [h2] at h
        simp only [bind_ok, pure_eq_ok, Except.ok.injEq] at h
        subst h
        rfl
  | null => simp only [wrapValue, pure_eq_ok, Except.ok.injEq] at h; subst h; rfl
  | bool b => simp only [wrapValue, pure_eq_ok, Except.ok.injEq] at h; subst h; rfl
  | num m => simp only [wrapValue, pure_eq_ok, Except.ok.injEq] at h; subst h; rfl
  | str s => simp only [wrapValue, pure_eq_ok, Except.ok.injEq] at h; subst h; rfl
  | quantity m un =>
    simp only [wrapValue, pure_eq_ok, Except.ok.injEq] at h; subst h; rfl
  | list xs => simp only [wrapValue, pure_eq_ok, Except.ok.injEq] at h; subst h; rfl
  | node es => simp only [wrapValue, pure_eq_ok, Except.ok.injEq] at h; subst h; rfl

/-- The unit coercion either keeps the (non-dict) value or produces a
quantity; it never produces a raw dict. -/
theorem coercePart_not_dict (st : Entries) (k : String) (v w : Value)
    (hv : isDictV v = false) (h : coercePart st k v = .ok w) :
    isDictV w = false := by
  unfold coercePart at h
  cases hl : lookupE st k with
  | none => rw [hl] at h; simp at h; subst h; exact hv
  | some old =>
    rw [hl] at h
    dsimp only at h
    by_cases hu : hasUnitAttr old = true
    · rw [if_pos hu] at h
      unfold coerceToUnitOf at h
      cases old with
      | quantity m0 u =>
        unfold quantityCoerce at h
        cases v with
        | quantity m u1 =>
          dsimp only at h
          by_cases hd : u1.dim = u.dim
          · rw [if_pos hd] at h
            simp at h
            subst h
            rfl
          · rw [if_neg hd] at h; simp at h
        | num m => simp at h; subst h; rfl
        | bool b => simp at h; subst h; rfl
        | null => simp at h
        | str s => simp at h
        | list xs => simp at h
        | dict es => simp at h
        | node es => simp at h
      | null => simp at h
      | bool b => simp at h
      | num m => simp at h
      | str s => simp at h
      | list xs => simp at h
      | dict es => simp at h
      | node es => simp at h
    · rw [if_neg hu] at h
      simp at h
      subst h
      exact hv

/-- Flat stores of non-dict values preserve the no-raw-dict property of
the mapping. -/
theorem setItemFlat_noDict (st : Entries) (k : String) (v : Value)
    (r : Entries) (hv : isDictV v = false) (h : setItemFlat st k v = .ok r)
    (hst : entriesNoDict st) : entriesNoDict r := by
  unfold setItemFlat at h
  cases hc : coercePart st k v with
  | error e => rw [hc] at h; simp at h
  | ok w =>
    rw [hc] at h
    simp only [bind_ok, pure_eq_ok, Except.ok.injEq] at h
    subst h
    intro k' w' hw'
    by_cases he : k = k'
    · subst he
      rw [lookupE_insertE_self] at hw'
      cases hw'
      exact coercePart_not_dict st k v w hv hc
    · rw [lookupE_insertE_ne st k k' w he] at hw'
      exact hst k' w' hw'

/-- The full `__setitem__` never stores a raw dict. -/
theorem cns_setitem_noDict (L : CsvyLoader) (st : Entries) (k : String)
    (v : Value) (r : Entries) (h : cns_setitem L st k v = .ok r)
    (hst : entriesNoDict st) : entriesNoDict r := by
  unfold cns_setitem at h
  cases hw : wrapValue L v with
  | error e => rw [hw] at h; simp at h
  | ok w =>
    rw [hw] at h
    simp only [bind_ok] at h
    exact setItemFlat_noDict st k w r (wrapValue_not_dict L v w hw) h hst

/-- The `__init__` insertion loop preserves the no-raw-dict property. -/
theorem initEntries_noDict (L : CsvyLoader) :
    ∀ (l : List (String × Value)) (st0 st : Entries),
      initEntries L l st0 = .ok st → entriesNoDict st0 →
      entriesNoDict st := by
  intro l
  induction l with
  | nil =>
    intro st0 st h h0
    simp only [initEntries, pure_eq_ok, Except.ok.injEq] at h
    subst h
    exact h0
  | cons hd tl ih =>
    obtain ⟨k0, v⟩ := hd
    intro st0 st h h0
    rw [initEntries_cons] at h
    cases hs : cns_setitem L st0 k0 v with
    | error e => rw [hs] at h; simp at h
    | ok st1 =>
      rw [hs] at h
      simp only [bind_ok] at h
      exact ih st1 st h (cns_setitem_noDict L st0 k0 v st1 hs h0)

/-- The `__init__` post-checks preserve the no-raw-dict property: the
CSVY branch stores only namespaces at the `model` key. -/
theorem cnsChecks_noDict (L : CsvyLoader) (st r : Entries)
    (h : cnsChecks L st = .ok r) (hst : entriesNoDict st) :
    entriesNoDict r := by
  unfold cnsChecks at h
  by_cases h1 : (memE st "csvy_model" && memE st "model") = true
  · rw [if_pos h1] at h; simp at h
  · rw [if_neg h1] at h
    by_cases h2 : memE st "csvy_model" = true
    · rw [if_pos h2] at h
      cases hdn : getAttrE st "config_dirname" with
      | error e => rw [hdn] at h; simp at h
      | ok dn =>
        rw [hdn] at h
        simp only [bind_ok] at h
        cases dn with
        | str dnS =>
          simp only [bind_ok] at h
          cases hcm : getAttrE st "csvy_model" with
          | error e => rw [hcm] at h; simp at h
          | ok cm =>
            rw [hcm] at h
            simp only [bind_ok] at h
            cases cm with
            | str cmS =>
              simp only [bind_ok] at h
              cases hdoc : L (pathJoin dnS cmS) with
              | error e => rw [hdoc] at h; simp at h
              | ok doc =>
                rw [hdoc] at h
                simp only [bind_ok] at h
                cases hs2 : setItemFlat st "model"
                    (.node (csvyBoundaryEntries doc)) with
                | error e => rw [hs2] at h; simp at h
                | ok st2 =>
                  rw [hs2] at h
                  simp only [bind_ok] at h
                  cases hre : reSetEntries (csvyBoundaryEntries doc) with
                  | error e => rw [hre] at h; simp at h
                  | ok model1 =>
                    rw [hre] at h
                    simp only [bind_ok] at h
                    have hst2 : entriesNoDict st2 :=
                      setItemFlat_noDict st "model"
                        (.node (csvyBoundaryEntries doc)) st2 rfl hs2 hst
                    exact setItemFlat_noDict st2 "model" (.node model1) r
                      rfl h hst2
            | null => simp at h
            | bool b => simp at h
            | num m => simp at h
            | quantity m un => simp at h
            | list xs => simp at h
            | dict es => simp at h
            | node es => simp at h
        | null => simp at h
        | bool b => simp at h
        | num m => simp at h
        | quantity m un => simp at h
        | list xs => simp at h
        | dict es => simp at h
        | node es => simp at h
    · rw [if_neg h2] at h
      simp only [pure_eq_ok, Except.ok.injEq] at h
      subst h
      exact hst

/-- C8, counterexample: a plain mapping nested inside a sequence is
*not* converted on storage — construction stores the raw dict untouched
inside the list, and the `item` path retrieves it raw, contradicting
the claim that no retrieval from a Namespace Node ever yields a plain
mapping. -/
theorem C8_counterexample :
    cns_init L0 [("a", .list [.dict [("b", .num 1)]])] =
        .ok [("a", .list [.dict [("b", .num 1)]])] ∧
      get_config_item [("a", .list [.dict [("b", .num 1)]])] "a.item0" =
        .ok (.dict [("b", .num 1)]) ∧
      isDictV (.dict [("b", .num 1)]) = true :=
  ⟨rfl, rfl, rfl⟩

/-- C8, amended: a plain mapping assigned *directly as a value* is
always converted before storage — `__setitem__` never stores a raw dict
at a key, wrapping a dict yields a namespace all of whose members are
again non-dicts, and construction yields a tree whose top level holds
no raw dict — but mappings nested inside sequences are exempt and
remain retrievable raw. -/
theorem C8_amended :
    (∀ (L : CsvyLoader) (st : Entries) (k : String) (v : Value)
        (r : Entries),
        cns_setitem L st k v = .ok r → entriesNoDict st →
        entriesNoDict r) ∧
    (∀ (L : CsvyLoader) (ds : List (String × Value)) (w : Value),
        wrapValue L (.dict ds) = .ok w →
        isDictV w = false ∧
          ∀ (k : String) (x : Value), subscriptV w k = .ok x →
            isDictV x = false) ∧
    (∀ (L : CsvyLoader) (es : List (String × Value)) (st : Entries),
        cns_init L es = .ok st → entriesNoDict st) := by
  have hinit : ∀ (L : CsvyLoader) (es : List (String × Value))
      (st : Entries), cns_init L es = .ok st → entriesNoDict st := by
    intro L es st h
    unfold cns_init at h
    cases h1 : initEntries L es [] with
    | error e => rw [h1] at h; simp at h
    | ok st0 =>
      rw [h1] at h
      simp only [bind_ok] at h
      have h0 : entriesNoDict ([] : Entries) := by
        intro k w hw
        simp [lookupE] at hw
      exact cnsChecks_noDict L st0 st h
        (initEntries_noDict L es [] st0 h1 h0)
  refine ⟨fun L st k v r h hst => cns_setitem_noDict L st k v r h hst,
    ?_, hinit⟩
  intro L ds w h
  rw [wrapValue] at h
  cases h1 : initEntries L ds [] with
  | error e => rw [h1] at h; simp at h
  | ok st0 =>
    rw [h1] at h
    simp only [bind_ok] at h
    cases h2 : cnsChecks L st0 with
    | error e => rw [h2] at h; simp at h
    | ok st2 =>
      rw [h2] at h
      simp only [bind_ok, pure_eq_ok, Except.ok.injEq] at h
      subst h
      refine ⟨rfl, ?_⟩
      intro k x hx
      have h0 : entriesNoDict ([] : Entries) := by
        intro k' w' hw'
        simp [lookupE] at hw'
      have hnd : entriesNoDict st2 :=
        cnsChecks_noDict L st0 st2 h2 (initEntries_noDict L ds [] st0 h1 h0)
      simp only [subscriptV] at hx
      cases hl : lookupE st2 k with
      | none => rw [hl] at hx; simp at hx
      | some y =>
        rw [hl] at hx
        simp only [Except.ok.injEq] at hx
        rw [← hx]
        exact hnd k y hl

/-- C8, witness: a dict value is stored as a namespace whose members
are non-dicts, and a concretely constructed tree holds no raw dict at
its top level. -/
theorem C8_amended_witness :
    isDictV (Value.node [("x", Value.num 1)]) = false ∧
      entriesNoDict [("m", Value.node [("x", Value.num 1)])] :=
  ⟨rfl, C8_amended.2.2 L0 [("m", .dict [("x", .num 1)])]
    [("m", Value.node [("x", Value.num 1)])] rfl⟩

/-!
Claim C9 — the unsupported-feature error kind
-/

/-- A `"custom"` convergence strategy is rejected with
`NotImplementedError` by `validate_montecarlo_section`. -/
theorem montecarlo_custom_rejected (L : CsvyLoader) (mc cs tv : Value)
    (hcs : subscriptV mc "convergence_strategy" = .ok cs)
    (htv : subscriptV cs "type" = .ok tv)
    (hcustom : isStr tv "custom" = true) :
    validate_montecarlo_section L mc =
      .error (.notImplemented "custom_convergence_strategy") := by
  have htvs : tv = .str "custom" := by
    cases tv with
    | str t =>
      simp only [isStr, decide_eq_true_eq] at hcustom
      rw [hcustom]
    | null => simp [isStr] at hcustom
    | bool b => simp [isStr] at hcustom
    | num m => simp [isStr] at hcustom
    | quantity m un => simp [isStr] at hcustom
    | list xs => simp [isStr] at hcustom
    | dict es => simp [isStr] at hcustom
    | node es => simp [isStr] at hcustom
  subst htvs
  unfold validate_montecarlo_section
  rw [hcs]
  simp only [bind_ok]
  rw [htv]
  simp only [bind_ok]
  simp [isStr]

/-- A convergence strategy whose type is neither `"damped"` nor
`"custom"` is rejected with `ValueError`. -/
theorem montecarlo_badtype_rejected (L : CsvyLoader) (mc cs tv : Value)
    (hcs : subscriptV mc "convergence_strategy" = .ok cs)
    (htv : subscriptV cs "type" = .ok tv)
    (hd : isStr tv "damped" = false) (hc : isStr tv "custom" = false) :
    validate_montecarlo_section L mc =
      .error (.valueErr "convergence_strategy_not_damped_or_custom") := by
  unfold validate_montecarlo_section
  rw [hcs]
  simp only [bind_ok]
  rw [htv]
  simp only [bind_ok]
  simp [hd, hc]

/-- Did the run fail with `NotImplementedError`? -/
def isNotImplementedE (r : Except ConfErr Entries) : Bool :=
  match r with
  | .error (.notImplemented _) => true
  | _ => false

/-- A configuration with `spectrum.method = "integrated"` and
`enable_full_relativity` true whose spectrum bounds are out of order. -/
def cfgC9 : Entries :=
  [("montecarlo", .dict
      [("convergence_strategy", .dict [("type", .str "damped")]),
       ("enable_full_relativity", .bool true)]),
   ("spectrum", .dict
      [("start", .quantity 5 angstrom),
       ("stop", .quantity 1 angstrom),
       ("method", .str "integrated")])]

/-- C9, counterexample: not every configuration with the integrated
method and full relativity fails with the unsupported-feature error —
the start/stop ordering rule runs first, so this configuration fails
with the ordinary `ValueError` instead of `NotImplementedError`. -/
theorem C9_counterexample :
    from_config_dict L0 VId cfgC9 true "" =
        .error (.valueErr "spectrum_start_gt_stop") ∧
      isNotImplementedE (from_config_dict L0 VId cfgC9 true "") = false :=
  ⟨rfl, rfl⟩

/-- C9, amended: once the spectrum bound ordering check passes, the
combination of the `"integrated"` method with full relativity makes
`validate_spectrum_section` fail with `NotImplementedError`; a
`"custom"` convergence strategy makes `validate_montecarlo_section`
fail with the same error kind; and that kind is distinct from the
`ValueError` used for physical-invariant violations. -/
theorem C9_amended :
    (∀ (sp efr : Value) (a b : ℚ) (ua ub : UnitT) (mv : Value),
        subscriptV sp "start" = .ok (.quantity a ua) →
        subscriptV sp "stop" = .ok (.quantity b ub) →
        ¬ b < a →
        subscriptV sp "method" = .ok mv →
        isStr mv "integrated" = true →
        pyTruthy efr = true →
        validate_spectrum_section sp efr =
          .error (.notImplemented "integrated_full_relativity")) ∧
    (∀ (L : CsvyLoader) (mc cs tv : Value),
        subscriptV mc "convergence_strategy" = .ok cs →
        subscriptV cs "type" = .ok tv →
        isStr tv "custom" = true →
        validate_montecarlo_section L mc =
          .error (.notImplemented "custom_convergence_strategy")) ∧
    (∀ (t1 t2 : String),
        ConfErr.notImplemented t1 ≠ ConfErr.valueErr t2) := by
  refine ⟨?_, ?_, ?_⟩
  · intro sp efr a b ua ub mv hstart hstop hord hm him hefr
    unfold validate_spectrum_section
    rw [hstart]
    simp only [bind_ok]
    rw [hstop]
    simp only [bind_ok]
    simp only [valueAttr, bind_ok]
    rw [if_neg hord]
    rw [hm]
    simp only [bind_ok]
    simp [him, hefr]
  · intro L mc cs tv hcs htv hcustom
    exact montecarlo_custom_rejected L mc cs tv hcs htv hcustom
  · intro t1 t2
    simp

/-- C9, witness: a concrete in-order integrated/relativistic spectrum
section raises `NotImplementedError`, a concrete custom convergence
strategy raises `NotImplementedError`, and that error differs from the
invariant-violation `ValueError`. -/
theorem C9_amended_witness :
    validate_spectrum_section
        (.dict [("start", .quantity 1 angstrom),
                ("stop", .quantity 2 angstrom),
                ("method", .str "integrated")]) (.bool true) =
        .error (.notImplemented "integrated_full_relativity") ∧
      validate_montecarlo_section L0
          (.dict [("convergence_strategy", .dict
              [("type", .str "custom")])]) =
        .error (.notImplemented "custom_convergence_strategy") ∧
      ConfErr.notImplemented "integrated_full_relativity" ≠
        ConfErr.valueErr "spectrum_start_gt_stop" :=
  ⟨C9_amended.1 (.dict [("start", .quantity 1 angstrom),
        ("stop", .quantity 2 angstrom),
        ("method", .str "integrated")]) (.bool true) 1 2 angstrom angstrom
      (.str "integrated") rfl rfl (by norm_num) rfl rfl rfl,
   C9_amended.2.1 L0 (.dict [("convergence_strategy", .dict
        [("type", .str "custom")])]) (.dict [("type", .str "custom")])
      (.str "custom") rfl rfl rfl,
   C9_amended.2.2 "integrated_full_relativity" "spectrum_start_gt_stop"⟩

/-!
Claim C4 — the set/get round trip on unit-bearing keys
-/

/-- Converting a magnitude into the unit it already has is the
identity. -/
theorem convertMag_self (m : ℚ) (u : UnitT) : convertMag m u u = m := by
  simp [convertMag]

/-- A successful index normalization is in range. -/
theorem pyNormIdx_lt (len : Nat) (i : Int) (n : Nat)
    (h : pyNormIdx len i = some n) : n < len := by
  unfold pyNormIdx at h
  by_cases h0 : 0 ≤ i
  · rw [if_pos h0] at h
    by_cases h1 : i < (len : Int)
    · rw [if_pos h1] at h
      cases h
      omega
    · rw [if_neg h1] at h
      cases h
  · rw [if_neg h0] at h
    dsimp only at h
    by_cases h2 : 0 ≤ i + (len : Int)
    · rw [if_pos h2] at h
      cases h
      omega
    · rw [if_neg h2] at h
      cases h

/-- Reading back the element just written. -/
theorem get?_set_self (xs : List Value) (n : Nat) (v : Value)
    (h : n < xs.length) : (xs.set n v).get? n = some v := by
  induction xs generalizing n with
  | nil => simp at h
  | cons hd tl ih =>
    cases n with
    | zero => rfl
    | succ n0 =>
      simp only [List.set_cons_succ, List.get?]
      exact ih n0 (by simpa using h)

/-- The core of the round trip, by induction on the split path: if the
path currently resolves to a quantity of unit `u`, then setting a
quantity of any unit of the same dimension succeeds, and reading the
path back yields the incoming magnitude converted into the *stored*
unit `u`. -/
theorem roundtrip_path (L : CsvyLoader) :
    ∀ (segs : List String) (es : Entries) (m0 m : ℚ) (u u1 : UnitT),
      u1.dim = u.dim →
      getConfigItemPath es segs = .ok (.quantity m0 u) →
      ∃ es2, setConfigItemPath L es segs (.quantity m u1) = .ok es2 ∧
        getConfigItemPath es2 segs =
          .ok (.quantity (convertMag m u1 u) u) := by
  intro segs
  induction segs with
  | nil =>
    intro es m0 m u u1 hdim h
    simp [getConfigItemPath] at h
  | cons p tail ih =>
    intro es m0 m u u1 hdim h
    match tail with
    | [] =>
      rw [getConfigItemPath] at h
      cases hlp : lookupE es p with
      | none => rw [hlp] at h; simp at h
      | some c =>
        rw [hlp] at h
        simp only [Except.ok.injEq] at h
        subst h
        refine ⟨insertE es p (.quantity (convertMag m u1 u) u), ?_, ?_⟩
        · rw [setConfigItemPath]
          simp [cns_setitem, wrapValue, setItemFlat, coercePart, hlp,
            hasUnitAttr, coerceToUnitOf, quantityCoerce, hdim]
        · rw [getConfigItemPath]
          rw [lookupE_insertE_self]
    | q :: rest =>
      by_cases hcond : (rest.isEmpty && strStartsWith q "item") = true
      · -- terminal item segment: list element read, coerce, write back
        rw [getConfigItemPath] at h
        rw [if_pos hcond] at h
        cases hlp : lookupE es p with
        | none => rw [hlp] at h; simp at h
        | some c =>
          rw [hlp] at h
          dsimp only at h
          simp only [bind_ok] at h
          cases hi : itemIndex q with
          | error e => rw [hi] at h; simp at h
          | ok i =>
            rw [hi] at h
            simp only [bind_ok] at h
            cases c with
            | list xs =>
              unfold pyIndexInt at h
              dsimp only at h
              cases hn : pyNormIdx xs.length i with
              | none => rw [hn] at h; simp at h
              | some n =>
                rw [hn] at h
                dsimp only at h
                cases hx : xs.get? n with
                | none => rw [hx] at h; simp at h
                | some x =>
                  rw [hx] at h
                  simp only [Except.ok.injEq] at h
                  subst h
                  have hlen : n < xs.length := pyNormIdx_lt _ _ _ hn
                  refine ⟨insertE es p
                    (.list (xs.set n (.quantity (convertMag m u1 u) u))),
                    ?_, ?_⟩
                  · rw [setConfigItemPath]
                    rw [if_pos hcond]
                    rw [hlp]
                    dsimp only
                    rw [hi]
                    simp only [bind_ok]
                    rw [show pyIndexInt (.list xs) i =
                        .ok (.quantity m0 u) by
                      unfold pyIndexInt
                      dsimp only
                      rw [hn]
                      dsimp only
                      rw [hx]]
                    simp only [bind_ok]
                    simp [hasUnitAttr, coerceToUnitOf, quantityCoerce,
                      hdim, pySetIdx, hn]
                  · rw [getConfigItemPath]
                    rw [if_pos hcond]
                    rw [lookupE_insertE_self]
                    dsimp only
                    rw [hi]
                    simp only [bind_ok]
                    unfold pyIndexInt
                    dsimp only
                    rw [show pyNormIdx
                        (xs.set n (.quantity (convertMag m u1 u) u)).length
                        i = some n by rw [List.length_set]; exact hn]
                    dsimp only
                    rw [get?_set_self _ _ _ (by
                      simpa [List.length_set] using hlen)]
            | str s =>
              unfold pyIndexInt at h
              dsimp only at h
              cases hn : pyNormIdx s.length i with
              | none => rw [hn] at h; simp at h
              | some n =>
                rw [hn] at h
                dsimp only at h
                cases hc2 : s.toList.get? n with
                | none => rw [hc2] at h; simp at h
                | some ch => rw [hc2] at h; simp at h
            | null => simp [pyIndexInt] at h
            | bool b => simp [pyIndexInt] at h
            | num mm => simp [pyIndexInt] at h
            | quantity mm un => simp [pyIndexInt] at h
            | dict es1 => simp [pyIndexInt] at h
            | node es1 => simp [pyIndexInt] at h
      · -- delegation to the child namespace at the head key
        rw [getConfigItemPath] at h
        rw [if_neg hcond] at h
        cases hlp : lookupE es p with
        | none => rw [hlp] at h; simp at h
        | some c =>
          rw [hlp] at h
          cases c with
          | node child =>
            obtain ⟨child2, hset, hget⟩ :=
              ih child m0 m u u1 hdim h
            refine ⟨insertE es p (.node child2), ?_, ?_⟩
            · rw [setConfigItemPath]
              rw [if_neg hcond]
              rw [hlp]
              dsimp only
              rw [hset]
              simp
            · rw [getConfigItemPath]
              rw [if_neg hcond]
              rw [lookupE_insertE_self]
              exact hget
          | null => simp at h
          | bool b => simp at h
          | num mm => simp at h
          | str s => simp at h
          | quantity mm un => simp at h
          | list xs => simp at h
          | dict es1 => simp at h

/-- C4: for a path whose terminal key holds a unit-bearing quantity of
unit `u`, setting a quantity of the same dimension and reading the
path back yields the incoming magnitude reinterpreted in the stored
unit `u` (never the incoming unit); in particular, with the same unit
the set/get round trip returns exactly what was set. -/
theorem C4_set_get_roundtrip (L : CsvyLoader) (es : Entries)
    (path : String) (m0 m : ℚ) (u u1 : UnitT) (hdim : u1.dim = u.dim)
    (hget : get_config_item es path = .ok (.quantity m0 u)) :
    (set_config_item L es path (.quantity m u1) >>= fun es2 =>
        get_config_item es2 path) =
      .ok (.quantity (convertMag m u1 u) u) ∧
    (u1 = u →
      (set_config_item L es path (.quantity m u1) >>= fun es2 =>
          get_config_item es2 path) = .ok (.quantity m u)) := by
  obtain ⟨es2, hs, hg⟩ :=
    roundtrip_path L (pySplitDot path) es m0 m u u1 hdim hget
  have hmain : (set_config_item L es path (.quantity m u1) >>=
      fun es2 => get_config_item es2 path) =
      .ok (.quantity (convertMag m u1 u) u) := by
    unfold set_config_item get_config_item
    rw [hs]
    simp only [bind_ok]
    exact hg
  refine ⟨hmain, fun he => ?_⟩
  subst he
  rw [hmain, convertMag_self]

/-- C4, witness: a velocity stored in km/s, re-assigned through the
path API as 7000 m/s, reads back as the converted magnitude in the
stored unit. -/
theorem C4_witness :
    (set_config_item L0 [("a", .node [("b", .quantity 5 kmPerS)])] "a.b"
          (.quantity 7000 mPerS) >>= fun es2 =>
        get_config_item es2 "a.b") =
      .ok (.quantity (convertMag 7000 mPerS kmPerS) kmPerS) ∧
    (mPerS = kmPerS →
      (set_config_item L0 [("a", .node [("b", .quantity 5 kmPerS)])] "a.b"
            (.quantity 7000 mPerS) >>= fun es2 =>
          get_config_item es2 "a.b") = .ok (.quantity 7000 kmPerS)) :=
  C4_set_get_roundtrip L0 [("a", .node [("b", .quantity 5 kmPerS)])]
    "a.b" 5 7000 kmPerS mPerS rfl rfl

/-!
Claims C2 and C3 — convergence-section normalization

The parameter-filling loop of `parse_convergence_section`, run on a
plain-dict section whose variable sub-sections (when present) are plain
dicts, is first proved equal to the pure function `normalizeConvPure`;
the claims' properties are then read off that function.
-/

/-- One parameter step equals one pure `copyDown` on the section's
entries. -/
theorem fillParamStep_dict (L : CsvyLoader) (ces ves : Entries)
    (var p : String) (hsub : lookupE ces var = some (.dict ves)) :
    fillParamStep L (.dict ces) var p =
      .ok (.dict (insertE ces var (.dict (copyDown ces ves p)))) := by
  unfold fillParamStep
  simp only [subscriptV]
  rw [hsub]
  dsimp only
  simp only [bind_ok]
  cases hvp : lookupE ves p with
  | none =>
    dsimp only
    simp only [pyContains, bind_ok]
    by_cases hpp : memE ces p = true
    · rw [if_pos hpp]
      obtain ⟨pv, hpv⟩ : ∃ pv, lookupE ces p = some pv := by
        unfold memE at hpp
        exact Option.isSome_iff_exists.mp hpp
      rw [hpv]
      dsimp only
      simp only [bind_ok, storeSubscript, aliasUpdate, pure_eq_ok,
        Except.ok.injEq]
      simp [copyDown, getParamIsNone, hvp, hpv]
    · rw [if_neg hpp]
      have hnone : lookupE ces p = none := by
        unfold memE at hpp
        exact Option.not_isSome_iff_eq_none.mp (by simpa using hpp)
      simp [copyDown, getParamIsNone, hvp, hnone, insertE_self ces var _ hsub]
  | some v =>
    cases v with
    | null =>
      dsimp only
      simp only [pyContains, bind_ok]
      by_cases hpp : memE ces p = true
      · rw [if_pos hpp]
        obtain ⟨pv, hpv⟩ : ∃ pv, lookupE ces p = some pv := by
          unfold memE at hpp
          exact Option.isSome_iff_exists.mp hpp
        rw [hpv]
        dsimp only
        simp only [bind_ok, storeSubscript, aliasUpdate, pure_eq_ok,
          Except.ok.injEq]
        simp [copyDown, getParamIsNone, hvp, hpv]
      · rw [if_neg hpp]
        have hnone : lookupE ces p = none := by
          unfold memE at hpp
          exact Option.not_isSome_iff_eq_none.mp (by simpa using hpp)
        simp [copyDown, getParamIsNone, hvp, hnone,
          insertE_self ces var _ hsub]
    | bool b =>
      simp [copyDown, getParamIsNone, hvp, insertE_self ces var _ hsub]
    | num m =>
      simp [copyDown, getParamIsNone, hvp, insertE_self ces var _ hsub]
    | str s =>
      simp [copyDown, getParamIsNone, hvp, insertE_self ces var _ hsub]
    | quantity m un =>
      simp [copyDown, getParamIsNone, hvp, insertE_self ces var _ hsub]
    | list xs =>
      simp [copyDown, getParamIsNone, hvp, insertE_self ces var _ hsub]
    | dict es1 =>
      simp [copyDown, getParamIsNone, hvp, insertE_self ces var _ hsub]
    | node es1 =>
      simp [copyDown, getParamIsNone, hvp, insertE_self ces var _ hsub]

/-- The fill `fillParamsPure` only reads the parent's entries at the listed
parameters. -/
theorem fillParamsPure_congr :
    ∀ (ps : List String) (p1 p2 ves : Entries),
      (∀ p ∈ ps, lookupE p1 p = lookupE p2 p) →
      fillParamsPure p1 ves ps = fillParamsPure p2 ves ps := by
  intro ps
  induction ps with
  | nil => intro p1 p2 ves _; rfl
  | cons q ps' ih =>
    intro p1 p2 ves hagree
    unfold fillParamsPure
    simp only [List.foldl_cons]
    have hq : copyDown p1 ves q = copyDown p2 ves q := by
      unfold copyDown
      rw [hagree q (by simp)]
    rw [hq]
    exact ih p1 p2 (copyDown p2 ves q) fun p hp => hagree p (by simp [hp])

/-- The whole parameter loop on one variable equals the pure fold. -/
theorem fillParams_fold (L : CsvyLoader) :
    ∀ (ps : List String) (ces ves : Entries) (var : String),
      var ∉ ps → lookupE ces var = some (.dict ves) →
      ps.foldlM (fun c p => fillParamStep L c var p) (Value.dict ces) =
        .ok (.dict (insertE ces var
          (.dict (fillParamsPure ces ves ps)))) := by
  intro ps
  induction ps with
  | nil =>
    intro ces ves var _ hsub
    simp [List.foldlM, fillParamsPure, insertE_self ces var _ hsub]
  | cons p ps' ih =>
    intro ces ves var hvp hsub
    have hvp' : var ∉ ps' := fun h => hvp (by simp [h])
    have hvne : var ≠ p := fun h => hvp (by simp [h])
    simp only [List.foldlM_cons]
    rw [fillParamStep_dict L ces ves var p hsub]
    simp only [bind_ok]
    rw [ih (insertE ces var (.dict (copyDown ces ves p))) (copyDown ces ves p)
      var hvp' (lookupE_insertE_self ces var _)]
    rw [insertE_insertE]
    have hcongr : fillParamsPure (insertE ces var (.dict (copyDown ces ves p)))
        (copyDown ces ves p) ps' = fillParamsPure ces (copyDown ces ves p) ps' := by
      apply fillParamsPure_congr
      intro p' hp'
      exact lookupE_insertE_ne ces var p' _ (fun h => hvp' (h ▸ hp'))
    rw [hcongr]
    rfl

/-- One variable step of the normalization equals the pure insert of
the filled sub-section. -/
theorem fillVar_dict (L : CsvyLoader) (ces : Entries) (var : String)
    (hvp : var ∉ convParams)
    (hsub : lookupE ces var = none ∨
      ∃ ves, lookupE ces var = some (.dict ves)) :
    fillVar L (.dict ces) var =
      .ok (.dict (insertE ces var (.dict
        (fillParamsPure ces (varSubEntries ces var) convParams)))) := by
  unfold fillVar
  rcases hsub with hnone | ⟨ves, hves⟩
  · simp only [pyContains, bind_ok, memE, hnone, Option.isSome_none,
      Bool.false_eq_true, if_false, storeSubscript, bind_ok]
    rw [fillParams_fold L convParams (insertE ces var (.dict [])) [] var hvp
      (lookupE_insertE_self ces var _)]
    rw [insertE_insertE]
    have hcongr : fillParamsPure (insertE ces var (.dict [])) [] convParams =
        fillParamsPure ces [] convParams := by
      apply fillParamsPure_congr
      intro p' hp'
      exact lookupE_insertE_ne ces var p' _ (fun h => hvp (h ▸ hp'))
    rw [hcongr]
    simp [varSubEntries, hnone]
  · simp only [pyContains, bind_ok, memE, hves, Option.isSome_some, if_true,
      pure_eq_ok]
    rw [fillParams_fold L convParams ces ves var hvp hves]
    simp [varSubEntries, hves]

/-- The fold over the convergence variables equals the pure fold, for
any variable list disjoint from the parameters whose sub-sections are
dicts or absent. -/
theorem fillVars_fold (L : CsvyLoader) :
    ∀ (vs : List String) (ces : Entries),
      (∀ v ∈ vs, v ∉ convParams) →
      (∀ v ∈ vs, lookupE ces v = none ∨
        ∃ ves, lookupE ces v = some (.dict ves)) →
      vs.foldlM (fillVar L) (Value.dict ces) =
        .ok (.dict (vs.foldl normStep ces)) := by
  intro vs
  induction vs with
  | nil => intro ces _ _; rfl
  | cons var vs' ih =>
    intro ces hdisj hsubs
    simp only [List.foldlM_cons]
    rw [fillVar_dict L ces var (hdisj var (by simp))
      (hsubs var (by simp))]
    simp only [bind_ok, List.foldl_cons]
    apply ih
    · intro v hv
      exact hdisj v (by simp [hv])
    · intro v hv
      by_cases hvv : v = var
      · subst hvv
        right
        exact ⟨_, lookupE_insertE_self ces v _⟩
      · rw [lookupE_insertE_ne ces var v _ (fun h => hvv h.symm)]
        exact hsubs v (by simp [hv])

/-- Run on a well-shaped plain-dict section, `parse_convergence_section`
computes `normalizeConvPure`. -/
theorem parse_dict_eval (L : CsvyLoader) (ces : Entries)
    (hsubs : subsAreDicts ces = true) :
    parse_convergence_section L (.dict ces) =
      .ok (.dict (normalizeConvPure ces)) := by
  unfold parse_convergence_section normalizeConvPure
  apply fillVars_fold
  · intro v hv
    revert hv
    rw [convVars, convParams]
    intro hv
    fin_cases hv <;> decide
  · intro v hv
    have := List.all_eq_true.mp hsubs v hv
    cases hl : lookupE ces v with
    | none => left; rfl
    | some w =>
      rw [hl] at this
      cases w with
      | dict es1 => right; exact ⟨es1, rfl⟩
      | null => simp at this
      | bool b => simp at this
      | num m => simp at this
      | str s => simp at this
      | quantity m un => simp at this
      | list xs => simp at this
      | node es1 => simp at this

/-- The step `copyDown` changes the sub-section only at the processed
parameter. -/
theorem copyDown_lookup_ne (parent ves : Entries) (q p : String)
    (h : q ≠ p) : lookupE (copyDown parent ves q) p = lookupE ves p := by
  unfold copyDown
  by_cases hn : getParamIsNone ves q = true
  · rw [if_pos hn]
    cases hq : lookupE parent q with
    | none => rfl
    | some pv => exact lookupE_insertE_ne ves q p pv h
  · rw [if_neg hn]

/-- Parameters outside the processed list are untouched. -/
theorem fillParamsPure_lookup_notmem :
    ∀ (ps : List String) (parent ves : Entries) (p : String), p ∉ ps →
      lookupE (fillParamsPure parent ves ps) p = lookupE ves p := by
  intro ps
  induction ps with
  | nil => intro parent ves p _; rfl
  | cons q ps' ih =>
    intro parent ves p hp
    have hqp : q ≠ p := fun h => hp (by simp [h])
    have hp' : p ∉ ps' := fun h => hp (by simp [h])
    unfold fillParamsPure
    simp only [List.foldl_cons]
    rw [show List.foldl (copyDown parent) (copyDown parent ves q) ps' =
      fillParamsPure parent (copyDown parent ves q) ps' from rfl]
    rw [ih parent (copyDown parent ves q) p hp']
    exact copyDown_lookup_ne parent ves q p hqp

/-- The value of a processed parameter after the loop: a missing or
`None` entry takes the parent's value when the parent has one, and an
already-present value is kept. -/
theorem fillParamsPure_lookup_mem :
    ∀ (ps : List String) (parent ves : Entries) (p : String),
      ps.Nodup → p ∈ ps →
      lookupE (fillParamsPure parent ves ps) p =
        (if getParamIsNone ves p = true then
           match lookupE parent p with
           | some pv => some pv
           | none => lookupE ves p
         else lookupE ves p) := by
  intro ps
  induction ps with
  | nil => intro parent ves p _ hp; simp at hp
  | cons q ps' ih =>
    intro parent ves p hnd hp
    unfold fillParamsPure
    simp only [List.foldl_cons]
    rw [show List.foldl (copyDown parent) (copyDown parent ves q) ps' =
      fillParamsPure parent (copyDown parent ves q) ps' from rfl]
    by_cases hqp : p = q
    · subst hqp
      have hpnot : p ∉ ps' := by
        have := List.nodup_cons.mp hnd
        exact this.1
      rw [fillParamsPure_lookup_notmem ps' parent _ p hpnot]
      unfold copyDown
      by_cases hn : getParamIsNone ves p = true
      · rw [if_pos hn, if_pos hn]
        cases hq : lookupE parent p with
        | none => rfl
        | some pv => exact lookupE_insertE_self ves p pv
      · rw [if_neg hn, if_neg hn]
    · have hp' : p ∈ ps' := by
        rcases List.mem_cons.mp hp with h | h
        · exact absurd h hqp
        · exact h
      have hnd' : ps'.Nodup := (List.nodup_cons.mp hnd).2
      rw [ih parent (copyDown parent ves q) p hnd' hp']
      have hlk : lookupE (copyDown parent ves q) p = lookupE ves p :=
        copyDown_lookup_ne parent ves q p (fun h => hqp h.symm)
      have hgn : getParamIsNone (copyDown parent ves q) p =
          getParamIsNone ves p := by
        unfold getParamIsNone
        rw [hlk]
      rw [hlk, hgn]

/-- The variable's sub-section is untouched by inserts at other keys. -/
theorem varSubEntries_insert_ne (ces : Entries) (k var : String)
    (x : Value) (h : k ≠ var) :
    varSubEntries (insertE ces k x) var = varSubEntries ces var := by
  unfold varSubEntries
  rw [lookupE_insertE_ne ces k var x h]

/-- Inserting at a key outside the parameter list does not change the
parameter fill. -/
theorem fillParamsPure_insert_parent (ces : Entries) (k : String)
    (x : Value) (ves : Entries) (hk : k ∉ convParams) :
    fillParamsPure (insertE ces k x) ves convParams =
      fillParamsPure ces ves convParams := by
  apply fillParamsPure_congr
  intro p hp
  exact lookupE_insertE_ne ces k p x (fun h => hk (h ▸ hp))

/-- A fold of `normStep` over variables not containing `var` leaves
the value at `var` unchanged. -/
theorem normStep_foldl_lookup_notmem :
    ∀ (vs : List String) (c : Entries) (var : String), var ∉ vs →
      lookupE (vs.foldl normStep c) var = lookupE c var := by
  intro vs
  induction vs with
  | nil => intro c var _; rfl
  | cons v vs' ih =>
    intro c var hvar
    have hne : v ≠ var := fun h => hvar (by simp [h])
    have hvar' : var ∉ vs' := fun h => hvar (by simp [h])
    simp only [List.foldl_cons]
    rw [ih (normStep c v) var hvar']
    exact lookupE_insertE_ne c v var _ hne

/-- What the `normStep` fold stores at each listed variable: the
variable's original sub-section filled against the original parent. -/
theorem normStep_foldl_lookup :
    ∀ (vs : List String) (c : Entries) (var : String),
      vs.Nodup → (∀ v ∈ vs, v ∉ convParams) → var ∈ vs →
      lookupE (vs.foldl normStep c) var =
        some (.dict (fillParamsPure c (varSubEntries c var) convParams)) := by
  intro vs
  induction vs with
  | nil => intro c var _ _ hvar; simp at hvar
  | cons v vs' ih =>
    intro c var hnd hdisj hvar
    simp only [List.foldl_cons]
    by_cases hv : var = v
    · subst hv
      have hnot : var ∉ vs' := (List.nodup_cons.mp hnd).1
      rw [normStep_foldl_lookup_notmem vs' (normStep c var) var hnot]
      exact lookupE_insertE_self c var _
    · have hvar' : var ∈ vs' := by
        rcases List.mem_cons.mp hvar with h | h
        · exact absurd h hv
        · exact h
      rw [ih (normStep c v) var (List.nodup_cons.mp hnd).2
        (fun x hx => hdisj x (by simp [hx])) hvar']
      have hvne : v ≠ var := fun h => hv h.symm
      rw [show normStep c v =
        insertE c v (.dict (fillParamsPure c (varSubEntries c v) convParams))
        from rfl]
      rw [varSubEntries_insert_ne c v var _ hvne,
        fillParamsPure_insert_parent c v _ _ (hdisj v (by simp))]

/-- What `normalizeConvPure` stores at each convergence variable. -/
theorem normalize_lookup_var (ces : Entries) (var : String)
    (hvar : var ∈ convVars) :
    lookupE (normalizeConvPure ces) var =
      some (.dict (fillParamsPure ces (varSubEntries ces var) convParams)) := by
  unfold normalizeConvPure
  exact normStep_foldl_lookup convVars ces var (by decide)
    (by intro v hv; rw [convVars] at hv; fin_cases hv <;> decide) hvar

/-- The filled sub-section of a variable, after normalization. -/
theorem varSub_normalize (ces : Entries) (var : String)
    (hvar : var ∈ convVars) :
    varSubEntries (normalizeConvPure ces) var =
      fillParamsPure ces (varSubEntries ces var) convParams := by
  unfold varSubEntries
  rw [normalize_lookup_var ces var hvar]
  rfl

/-- A present, non-`None` parameter does not count as missing. -/
theorem getParamIsNone_false (ves : Entries) (p : String) (v : Value)
    (hv : lookupE ves p = some v) (hnn : v ≠ .null) :
    getParamIsNone ves p = false := by
  unfold getParamIsNone
  rw [hv]
  cases v with
  | null => exact absurd rfl hnn
  | bool b => rfl
  | num m => rfl
  | str s => rfl
  | quantity m un => rfl
  | list xs => rfl
  | dict es => rfl
  | node es => rfl

/-- C2: on a damped convergence section (a plain dict whose variable
sub-sections, when present, are plain dicts), the normalization of
`parse_convergence_section` succeeds and computes `normalizeConvPure`;
afterwards every one of the four variables holds a sub-mapping; a
parameter the sub-section lacked (absent or `None`) whose value the
parent section defines directly is copied down from the parent; and a
parameter already present in the sub-section with a non-`None` value is
never overwritten. -/
theorem C2_convergence_defaults (L : CsvyLoader) (ces : Entries)
    (hsubs : subsAreDicts ces = true) :
    parse_convergence_section L (.dict ces) =
        .ok (.dict (normalizeConvPure ces)) ∧
      (∀ var ∈ convVars, ∃ ves',
        lookupE (normalizeConvPure ces) var = some (.dict ves')) ∧
      (∀ var ∈ convVars, ∀ p ∈ convParams, ∀ (pv : Value),
        getParamIsNone (varSubEntries ces var) p = true →
        lookupE ces p = some pv →
        lookupE (varSubEntries (normalizeConvPure ces) var) p = some pv) ∧
      (∀ var ∈ convVars, ∀ (p : String) (v : Value),
        lookupE (varSubEntries ces var) p = some v → v ≠ .null →
        lookupE (varSubEntries (normalizeConvPure ces) var) p = some v) := by
  refine ⟨parse_dict_eval L ces hsubs, ?_, ?_, ?_⟩
  · intro var hvar
    exact ⟨_, normalize_lookup_var ces var hvar⟩
  · intro var hvar p hp pv hnone hparent
    rw [varSub_normalize ces var hvar]
    rw [fillParamsPure_lookup_mem convParams ces (varSubEntries ces var) p
      (by decide) hp]
    rw [if_pos hnone, hparent]
  · intro var hvar p v hv hnn
    rw [varSub_normalize ces var hvar]
    by_cases hp : p ∈ convParams
    · rw [fillParamsPure_lookup_mem convParams ces (varSubEntries ces var) p
        (by decide) hp]
      rw [if_neg (by simp [getParamIsNone_false _ _ _ hv hnn])]
      exact hv
    · rw [fillParamsPure_lookup_notmem convParams ces _ p hp]
      exact hv

/-- A concrete damped section: a shared `threshold` default and an
explicit `t_inner.threshold` override. -/
def cesC2 : Entries :=
  [("type", .str "damped"), ("threshold", .num 5),
   ("t_inner", .dict [("threshold", .num 1)])]

/-- C2, witness: the shared threshold is copied into `t_rad` while the
explicit `t_inner` override is preserved. -/
theorem C2_witness :
    parse_convergence_section L0 (.dict cesC2) =
        .ok (.dict (normalizeConvPure cesC2)) ∧
      lookupE (varSubEntries (normalizeConvPure cesC2) "t_rad")
        "threshold" = some (.num 5) ∧
      lookupE (varSubEntries (normalizeConvPure cesC2) "t_inner")
        "threshold" = some (.num 1) :=
  ⟨(C2_convergence_defaults L0 cesC2 rfl).1,
   (C2_convergence_defaults L0 cesC2 rfl).2.2.1 "t_rad" (by decide)
     "threshold" (by decide) (.num 5) rfl rfl,
   (C2_convergence_defaults L0 cesC2 rfl).2.2.2 "t_inner" (by decide)
     "threshold" (.num 1) rfl (fun h => Value.noConfusion h)⟩

/-!
Claim C3 — the normalized convergence invariant
-/

/-- A parameter the parent defines stays present in the filled
sub-section (it is either copied down or was already there). -/
theorem fillParamsPure_isSome (ces ves : Entries) (p : String)
    (hp : p ∈ convParams) (hparent : (lookupE ces p).isSome = true) :
    (lookupE (fillParamsPure ces ves convParams) p).isSome = true := by
  rw [fillParamsPure_lookup_mem convParams ces ves p (by decide) hp]
  by_cases hn : getParamIsNone ves p = true
  · rw [if_pos hn]
    obtain ⟨pv, hpv⟩ := Option.isSome_iff_exists.mp hparent
    rw [hpv]
    rfl
  · rw [if_neg hn]
    unfold getParamIsNone at hn
    cases hv : lookupE ves p with
    | none => rw [hv] at hn; simp at hn
    | some v => rfl

/-- A raw document accepted by the whole pipeline whose convergence
strategy gives no shared `threshold` or `damping_constant`. -/
def cfgC3 : Entries :=
  [("montecarlo", .dict
      [("convergence_strategy", .dict [("type", .str "damped")]),
       ("enable_full_relativity", .bool false)]),
   ("spectrum", .dict
      [("start", .quantity 1 angstrom),
       ("stop", .quantity 2 angstrom),
       ("method", .str "virtual")])]

/-- The finished tree the pipeline produces for `cfgC3`. -/
def treeC3 : Entries :=
  [("montecarlo", .node
      [("convergence_strategy", .node
          [("type", .str "damped"),
           ("t_inner", .node [("type", .str "damped")]),
           ("t_rad", .node [("type", .str "damped")]),
           ("w", .node [("type", .str "damped")]),
           ("v_inner_boundary", .node [("type", .str "damped")])]),
       ("enable_full_relativity", .bool false)]),
   ("spectrum", .node
      [("start", .quantity 1 angstrom),
       ("stop", .quantity 2 angstrom),
       ("method", .str "virtual")]),
   ("config_dirname", .str "")]

/-- C3, counterexample: the pipeline accepts this configuration, yet in
the finished tree the normalized `t_inner` sub-section holds only
`type` — `threshold` (like `damping_constant`) is absent, because the
parent convergence section does not define it, contradicting the claim
that each sub-section always contains all three keys. -/
theorem C3_counterexample :
    from_config_dict L0 VId cfgC3 true "" = .ok treeC3 ∧
      get_config_item treeC3
          "montecarlo.convergence_strategy.t_inner.threshold" =
        .error (.keyErr "threshold") :=
  ⟨rfl, rfl⟩

/-- C3, amended: on an accepted damped section the normalization always
creates the four sub-sections and each contains `type`; each contains
all three of `damping_constant`, `threshold`, `type` provided the
parent section defines `damping_constant` and `threshold` directly
(as schema defaults do) — otherwise a parameter absent from both parent
and sub-section stays absent; `"custom"` is rejected with
`NotImplementedError` and any other type with `ValueError`. -/
theorem C3_amended :
    (∀ (L : CsvyLoader) (mces ces : Entries),
        lookupE mces "convergence_strategy" = some (.dict ces) →
        subsAreDicts ces = true →
        lookupE ces "type" = some (.str "damped") →
        validate_montecarlo_section L (.dict mces) =
            .ok (.dict (insertE mces "convergence_strategy"
              (.dict (normalizeConvPure ces)))) ∧
          (∀ var ∈ convVars,
            lookupE (normalizeConvPure ces) var =
                some (.dict (fillParamsPure ces (varSubEntries ces var)
                  convParams)) ∧
              (lookupE (varSubEntries (normalizeConvPure ces) var)
                "type").isSome = true) ∧
          ((lookupE ces "damping_constant").isSome = true →
           (lookupE ces "threshold").isSome = true →
           ∀ var ∈ convVars, ∀ p ∈ convParams,
             (lookupE (varSubEntries (normalizeConvPure ces) var)
               p).isSome = true)) ∧
    (∀ (L : CsvyLoader) (mc cs tv : Value),
        subscriptV mc "convergence_strategy" = .ok cs →
        subscriptV cs "type" = .ok tv → isStr tv "custom" = true →
        validate_montecarlo_section L mc =
          .error (.notImplemented "custom_convergence_strategy")) ∧
    (∀ (L : CsvyLoader) (mc cs tv : Value),
        subscriptV mc "convergence_strategy" = .ok cs →
        subscriptV cs "type" = .ok tv →
        isStr tv "damped" = false → isStr tv "custom" = false →
        validate_montecarlo_section L mc =
          .error (.valueErr "convergence_strategy_not_damped_or_custom")) := by
  refine ⟨?_, montecarlo_custom_rejected, montecarlo_badtype_rejected⟩
  intro L mces ces hcs hsubs htype
  refine ⟨?_, ?_, ?_⟩
  · unfold validate_montecarlo_section
    simp only [subscriptV]
    rw [hcs]
    dsimp only
    simp only [bind_ok]
    rw [htype]
    dsimp only
    simp only [bind_ok, isStr, decide_eq_true_eq, if_true]
    rw [parse_dict_eval L ces hsubs]
    simp [storeSubscript]
  · intro var hvar
    refine ⟨normalize_lookup_var ces var hvar, ?_⟩
    rw [varSub_normalize ces var hvar]
    exact fillParamsPure_isSome ces (varSubEntries ces var) "type"
      (by decide) (by rw [htype]; rfl)
  · intro hdamp hthr var hvar p hp
    rw [varSub_normalize ces var hvar]
    apply fillParamsPure_isSome ces (varSubEntries ces var) p hp
    rw [convParams] at hp
    simp only [List.mem_cons, List.mem_singleton, List.not_mem_nil,
      or_false] at hp
    rcases hp with rfl | rfl | rfl
    · exact hdamp
    · exact hthr
    · rw [htype]; rfl

/-- A fully specified damped section for the witness. -/
def cesC3w : Entries :=
  [("type", .str "damped"), ("damping_constant", .num 1),
   ("threshold", .num 2)]

/-- C3, amended witness: with the parent defining both shared
parameters, the normalized `w` sub-section contains `threshold`, the
validator succeeds with the normalized section in place, and the
custom/other rejections fire on concrete inputs. -/
theorem C3_amended_witness :
    validate_montecarlo_section L0
        (.dict [("convergence_strategy", .dict cesC3w)]) =
        .ok (.dict (insertE [("convergence_strategy", .dict cesC3w)]
          "convergence_strategy" (.dict (normalizeConvPure cesC3w)))) ∧
      (lookupE (varSubEntries (normalizeConvPure cesC3w) "w")
        "threshold").isSome = true ∧
      validate_montecarlo_section L0
          (.dict [("convergence_strategy", .dict
            [("type", .str "custom")])]) =
        .error (.notImplemented "custom_convergence_strategy") ∧
      validate_montecarlo_section L0
          (.dict [("convergence_strategy", .dict
            [("type", .str "spline")])]) =
        .error (.valueErr "convergence_strategy_not_damped_or_custom") :=
  ⟨(C3_amended.1 L0 [("convergence_strategy", .dict cesC3w)] cesC3w
      rfl rfl rfl).1,
   (C3_amended.1 L0 [("convergence_strategy", .dict cesC3w)] cesC3w
      rfl rfl rfl).2.2 rfl rfl "w" (by decide) "threshold" (by decide),
   C3_amended.2.1 L0 (.dict [("convergence_strategy", .dict
      [("type", .str "custom")])]) (.dict [("type", .str "custom")])
      (.str "custom") rfl rfl rfl,
   C3_amended.2.2 L0 (.dict [("convergence_strategy", .dict
      [("type", .str "spline")])]) (.dict [("type", .str "spline")])
      (.str "spline") rfl rfl rfl rfl⟩

end Tardis
